import Mathlib

/-!
Shallow embedding of `src/app.py` (ReadReminderMVP), a Tk reminder utility over
a single JSON document store, together with proofs about the embedded code.

Modelling conventions:
* Pure fragments of the program (JSON serialisation and parsing, input
  validation, reading-list edits) are executable Lean functions.
* The filesystem visible to the program is a `Store` record (contents of
  `data.json` and of the completed-items markdown file); window callbacks are
  state-passing functions over `Store` and an explicit `AppState`.
* Python exceptions are modelled with `Except PyErr`.  A load-bearing fact of
  the source is that line 7 reads `from datetime import datetime, timedelta`,
  so the name `datetime` denotes the `datetime` *class*; the expressions
  `datetime.datetime` and `datetime.UTC` that appear on lines 54, 92, 449,
  472-473 and 491 are attribute lookups on that class, which fail with
  `AttributeError` (the class has no such attributes; they are attributes of
  the shadowed `datetime` *module*).  The attribute table of the class, as far
  as this file uses it, is made explicit in `datetimeClassHasAttr`.
* `json.dumps(x, indent=2)` and `json.loads` are modelled by an executable
  serialiser `dumps` and parser `loads` over a `Json` tree covering the JSON
  fragment this program reads and writes (null, booleans, arbitrary-precision
  integers, strings with full escaping, arrays, objects; float literals and
  lone-surrogate escapes are not modelled, and neither are duplicate keys,
  which the program never produces).
-/

/-- Python exception values raised by the embedded code. -/
inductive PyErr where
  | attributeError (attr : String)
  | valueError
  deriving DecidableEq

/-- JSON whitespace characters (RFC 8259, as skipped by `json.loads`). -/
def isJWs (c : Char) : Bool :=
  c = ' ' || c = '\t' || c = '\n' || c = '\r'

/-- ASCII decimal digit test. -/
def isDig (c : Char) : Bool :=
  48 ≤ c.toNat && c.toNat ≤ 57

/-- Whitespace stripped by Python `str.strip()` / `int(str)` (ASCII subset;
Python also strips some unicode whitespace, which is not modelled). -/
def isPyWs (c : Char) : Bool :=
  c = ' ' || c = '\t' || c = '\n' || c = '\r' || c = '\x0b' || c = '\x0c'

/-- Drop leading and trailing Python whitespace from a character list. -/
def stripWsL (cs : List Char) : List Char :=
  ((cs.dropWhile isPyWs).reverse.dropWhile isPyWs).reverse

/-- Model of Python `str.strip()` with no arguments. -/
def pyStrip (s : String) : String :=
  ⟨stripWsL s.data⟩

/-- The decimal digit character for `n < 10`. -/
def digitChar (n : Nat) : Char :=
  Char.ofNat (48 + n)

/-- Fuelled worker for `natDigits`; the fuel is only a termination device and
any `fuel > n` gives the true digit string. -/
def natDigitsF : Nat → Nat → List Char
  | 0, _ => []
  | fuel + 1, n =>
    if n < 10 then [digitChar n]
    else natDigitsF fuel (n / 10) ++ [digitChar (n % 10)]

/-- Decimal digits of a natural number, most significant first
(the digits of Python `repr` for a non-negative int). -/
def natDigits (n : Nat) : List Char :=
  natDigitsF (n + 1) n

/-- Python decimal rendering of an int (`repr(n)` / `f-string` of an int,
and the JSON rendering `json.dumps` uses for an int). -/
def intRepr (i : Int) : String :=
  if i < 0 then ⟨'-' :: natDigits i.natAbs⟩ else ⟨natDigits i.natAbs⟩

/-- Accumulate decimal digits: the value of `acc` followed by digits `cs`. -/
def digitsVal (acc : Nat) : List Char → Nat
  | [] => acc
  | c :: cs => digitsVal (acc * 10 + (c.toNat - 48)) cs

/-- Consume a maximal run of decimal digits, accumulating their value. -/
def takeDigits (acc : Nat) : List Char → Nat × List Char
  | [] => (acc, [])
  | c :: cs =>
    if isDig c then takeDigits (acc * 10 + (c.toNat - 48)) cs
    else (acc, c :: cs)

/-- Model of Python `int(s)` for a decimal string: strip whitespace, optional
sign, then one or more ASCII digits.  (Python additionally accepts underscore
digit grouping and non-ASCII digits, which the program never feeds it; those
are not modelled.)  `none` models `ValueError`. -/
def pyInt (s : String) : Option Int :=
  let core : List Char → Option Int := fun ds =>
    if ds ≠ [] ∧ ds.all isDig then some (digitsVal 0 ds) else none
  match stripWsL s.data with
  | '+' :: ds => core ds
  | '-' :: ds => (core ds).map (fun n => -n)
  | ds => core ds

/-- Lowercase hexadecimal digit character for `n < 16`. -/
def hexDigitChar (n : Nat) : Char :=
  if n < 10 then Char.ofNat (48 + n) else Char.ofNat (87 + n)

/-- Four lowercase hex digits of `n < 0x10000`, as in a JSON `\uXXXX` escape. -/
def hex4 (n : Nat) : List Char :=
  [hexDigitChar (n / 4096 % 16), hexDigitChar (n / 256 % 16),
   hexDigitChar (n / 16 % 16), hexDigitChar (n % 16)]

/-- Value of one hexadecimal digit character (either case), as accepted by
`json.loads` in a `\uXXXX` escape. -/
def hexVal (c : Char) : Option Nat :=
  if 48 ≤ c.toNat ∧ c.toNat ≤ 57 then some (c.toNat - 48)
  else if 97 ≤ c.toNat ∧ c.toNat ≤ 102 then some (c.toNat - 87)
  else if 65 ≤ c.toNat ∧ c.toNat ≤ 70 then some (c.toNat - 55)
  else none

/-- Value of four hexadecimal digit characters. -/
def hexQuad (a b c d : Char) : Option Nat := do
  let x ← hexVal a
  let y ← hexVal b
  let z ← hexVal c
  let w ← hexVal d
  pure (((x * 16 + y) * 16 + z) * 16 + w)

/-- Build a `Char` from a scalar value, failing on invalid code points
(surrogates or out of range). -/
def mkChar? (n : Nat) : Option Char :=
  if n.isValidChar then some (Char.ofNat n) else none

/-- Escape one character the way `json.dumps` with `ensure_ascii=True` (the
default used by the program) does: named escapes for quote, backslash and the
common control characters, `\u00xx` for other control characters, printable
ASCII verbatim, and `\uxxxx` (with a surrogate pair above `0xFFFF`) for
everything else. -/
def encChar (c : Char) : List Char :=
  if c = '\\' then ['\\', '\\']
  else if c = '"' then ['\\', '"']
  else if c = '\x08' then ['\\', 'b']
  else if c = '\x0c' then ['\\', 'f']
  else if c = '\n' then ['\\', 'n']
  else if c = '\r' then ['\\', 'r']
  else if c = '\t' then ['\\', 't']
  else if c.toNat < 0x20 then '\\' :: 'u' :: hex4 c.toNat
  else if c.toNat ≤ 0x7e then [c]
  else if c.toNat < 0x10000 then '\\' :: 'u' :: hex4 c.toNat
  else
    ('\\' :: 'u' :: hex4 (0xd800 + (c.toNat - 0x10000) / 0x400)) ++
    ('\\' :: 'u' :: hex4 (0xdc00 + (c.toNat - 0x10000) % 0x400))

/-- Escape the body of a JSON string literal, character by character. -/
def encStr : List Char → List Char
  | [] => []
  | c :: cs => encChar c ++ encStr cs

/-- Decode the tail of a `\uXXXX` escape once both code units are in hand:
accept only a low surrogate as the second unit and recombine the pair. -/
def parseU3 (hi lo : Nat) (r3 : List Char) : Option (Char × List Char) :=
  if 0xdc00 ≤ lo ∧ lo < 0xe000 then
    (mkChar? (0x10000 + (hi - 0xd800) * 0x400 + (lo - 0xdc00))).map (fun ch => (ch, r3))
  else none

/-- Decode what follows the first code unit of a `\uXXXX` escape: a high
surrogate must be followed by a second `\uXXXX` (its low-surrogate partner);
anything else decodes as the character of the first unit. -/
def parseU2 (hi : Nat) (r2 : List Char) : Option (Char × List Char) :=
  if 0xd800 ≤ hi ∧ hi < 0xdc00 then
    match r2 with
    | b2 :: u2 :: a3 :: b3 :: c3 :: d3 :: r3 =>
      if b2 = '\\' ∧ u2 = 'u' then
        (hexQuad a3 b3 c3 d3).bind (fun lo => parseU3 hi lo r3)
      else none
    | _ => none
  else (mkChar? hi).map (fun ch => (ch, r2))

/-- Decode one `\uXXXX` escape (the input starts right after `\u`),
combining a valid surrogate pair into one code point, as the `json.loads`
string scanner does.  Returns the decoded character and the rest. -/
def parseU (r1 : List Char) : Option (Char × List Char) :=
  match r1 with
  | a :: b :: c2 :: d :: r2 => (hexQuad a b c2 d).bind (fun hi => parseU2 hi r2)
  | _ => none

/-- Fuelled body of the `json.loads` string scanner in strict mode: decode
characters up to the closing quote, rejecting raw control characters,
decoding escapes (`\uXXXX` via `parseU`).  (Python would accept a lone
surrogate escape, producing a string Lean cannot represent; the model rejects
it.  `json.dumps` output never contains one.)  One fuel unit is spent per
decoded character, so `length + 1` fuel always suffices. -/
def parseStrBodyF : Nat → List Char → Option (List Char × List Char)
  | 0, _ => none
  | f + 1, cs =>
    match cs with
    | [] => none
    | c :: r =>
      if c = '"' then some ([], r)
      else if c = '\\' then
        match r with
        | [] => none
        | e :: r1 =>
          if e = '"' then (parseStrBodyF f r1).map (fun p => ('"' :: p.1, p.2))
          else if e = '\\' then (parseStrBodyF f r1).map (fun p => ('\\' :: p.1, p.2))
          else if e = '/' then (parseStrBodyF f r1).map (fun p => ('/' :: p.1, p.2))
          else if e = 'b' then (parseStrBodyF f r1).map (fun p => ('\x08' :: p.1, p.2))
          else if e = 'f' then (parseStrBodyF f r1).map (fun p => ('\x0c' :: p.1, p.2))
          else if e = 'n' then (parseStrBodyF f r1).map (fun p => ('\n' :: p.1, p.2))
          else if e = 'r' then (parseStrBodyF f r1).map (fun p => ('\r' :: p.1, p.2))
          else if e = 't' then (parseStrBodyF f r1).map (fun p => ('\t' :: p.1, p.2))
          else if e = 'u' then
            match parseU r1 with
            | none => none
            | some (ch, r2) => (parseStrBodyF f r2).map (fun p => (ch :: p.1, p.2))
          else none
      else if c.toNat < 0x20 then none
      else (parseStrBodyF f r).map (fun p => (c :: p.1, p.2))

/-- Parse the body of a JSON string literal up to its closing quote (see
`parseStrBodyF`; the fuel, one unit per decoded character, is only a
termination device and `length + 1` always suffices). -/
def parseStrBody (cs : List Char) : Option (List Char × List Char) :=
  parseStrBodyF (cs.length + 1) cs

/-- JSON values, covering the fragment `src/app.py` reads and writes. -/
inductive Json where
  | null
  | bool (b : Bool)
  | int (n : Int)
  | str (s : String)
  | arr (elts : List Json)
  | obj (fields : List (String × Json))

/-- Indentation emitted by `json.dumps(..., indent=2)` at nesting depth `d`. -/
def sp (d : Nat) : List Char :=
  List.replicate (2 * d) ' '

mutual

/-- Characters of `json.dumps(j, indent=2)` at nesting depth `d`
(`src/app.py` lines 83, 98, 103 all serialise this way). -/
def dumpVal : Json → Nat → List Char
  | .null, _ => ['n', 'u', 'l', 'l']
  | .bool true, _ => ['t', 'r', 'u', 'e']
  | .bool false, _ => ['f', 'a', 'l', 's', 'e']
  | .int n, _ => (intRepr n).data
  | .str s, _ => '"' :: (encStr s.data ++ ['"'])
  | .arr [], _ => ['[', ']']
  | .arr (x :: xs), d =>
    '[' :: '\n' :: (sp (d + 1) ++ (dumpVal x (d + 1) ++ (dumpArr xs (d + 1) ++
      ('\n' :: (sp d ++ [']'])))))
  | .obj [], _ => ['\x7b', '\x7d']
  | .obj (kv :: kvs), d =>
    '\x7b' :: '\n' :: (sp (d + 1) ++ ('"' :: (encStr kv.1.data ++ ('"' :: ':' :: ' ' ::
      (dumpVal kv.2 (d + 1) ++ (dumpObj kvs (d + 1) ++
        ('\n' :: (sp d ++ ['\x7d']))))))))
termination_by structural j => j

/-- Serialise the second and later array elements (`", \n" ++ indent` before
each, matching the pretty-printer's separators). -/
def dumpArr : List Json → Nat → List Char
  | [], _ => []
  | x :: xs, d => ',' :: '\n' :: (sp d ++ (dumpVal x d ++ dumpArr xs d))
termination_by structural xs => xs

/-- Serialise the second and later object members. -/
def dumpObj : List (String × Json) → Nat → List Char
  | [], _ => []
  | kv :: kvs, d =>
    ',' :: '\n' :: (sp d ++ ('"' :: (encStr kv.1.data ++ ('"' :: ':' :: ' ' ::
      (dumpVal kv.2 d ++ dumpObj kvs d)))))
termination_by structural kvs => kvs

end

/-- Model of `json.dumps(j, indent=2)`. -/
def dumps (j : Json) : String :=
  ⟨dumpVal j 0⟩

/-- Skip JSON whitespace. -/
def skipWs : List Char → List Char
  | [] => []
  | c :: cs => if isJWs c then skipWs cs else c :: cs

/-- Parse a JSON integer after an optional minus sign: `0`, or a nonzero
digit followed by more digits (the integer part of the `json` number
grammar; fraction and exponent parts are not modelled). -/
def parseJNumNat : List Char → Option (Nat × List Char)
  | [] => none
  | c :: cs =>
    if c = '0' then some (0, cs)
    else if isDig c then some (takeDigits (c.toNat - 48) cs)
    else none

/-- Parse a JSON number (integers only, see `parseJNumNat`). -/
def parseJNum : List Char → Option (Int × List Char)
  | [] => none
  | c :: cs =>
    if c = '-' then (parseJNumNat cs).map (fun p => (-(p.1 : Int), p.2))
    else (parseJNumNat (c :: cs)).map (fun p => ((p.1 : Int), p.2))

mutual

/-- Fuelled model of the `json.loads` value scanner, dispatching on the first
non-whitespace character exactly as the Python scanner does.  The fuel only
bounds recursion depth bookkeeping; `loads` supplies enough for any input. -/
def parseVal : Nat → List Char → Option (Json × List Char)
  | 0, _ => none
  | f + 1, cs =>
    match skipWs cs with
    | [] => none
    | c :: r =>
      if c = 'n' then
        match r with
        | 'u' :: 'l' :: 'l' :: r2 => some (.null, r2)
        | _ => none
      else if c = 't' then
        match r with
        | 'r' :: 'u' :: 'e' :: r2 => some (.bool true, r2)
        | _ => none
      else if c = 'f' then
        match r with
        | 'a' :: 'l' :: 's' :: 'e' :: r2 => some (.bool false, r2)
        | _ => none
      else if c = '"' then (parseStrBody r).map (fun p => (.str ⟨p.1⟩, p.2))
      else if c = '[' then
        match skipWs r with
        | [] => none
        | c2 :: r2 =>
          if c2 = ']' then some (.arr [], r2)
          else do
            let (v, r3) ← parseVal f (c2 :: r2)
            let (vs, r4) ← parseArrRest f r3
            pure (.arr (v :: vs), r4)
      else if c = '\x7b' then
        match skipWs r with
        | [] => none
        | c2 :: r2 =>
          if c2 = '\x7d' then some (.obj [], r2)
          else do
            let (kv, r3) ← parseMember f (c2 :: r2)
            let (kvs, r4) ← parseObjRest f r3
            pure (.obj (kv :: kvs), r4)
      else (parseJNum (c :: r)).map (fun p => (.int p.1, p.2))
termination_by structural f => f

/-- After one array element: `,` and another element, or `]`. -/
def parseArrRest : Nat → List Char → Option (List Json × List Char)
  | 0, _ => none
  | f + 1, cs =>
    match skipWs cs with
    | [] => none
    | c :: r =>
      if c = ']' then some ([], r)
      else if c = ',' then do
        let (v, r2) ← parseVal f r
        let (vs, r3) ← parseArrRest f r2
        pure (v :: vs, r3)
      else none
termination_by structural f => f

/-- One object member: quoted key, `:`, value. -/
def parseMember : Nat → List Char → Option ((String × Json) × List Char)
  | 0, _ => none
  | f + 1, cs =>
    match skipWs cs with
    | [] => none
    | c :: r =>
      if c = '"' then do
        let (k, r2) ← parseStrBody r
        match skipWs r2 with
        | [] => none
        | c2 :: r3 =>
          if c2 = ':' then do
            let (v, r4) ← parseVal f r3
            pure ((⟨k⟩, v), r4)
          else none
      else none
termination_by structural f => f

/-- After one object member: `,` and another member, or the closing brace. -/
def parseObjRest : Nat → List Char → Option (List (String × Json) × List Char)
  | 0, _ => none
  | f + 1, cs =>
    match skipWs cs with
    | [] => none
    | c :: r =>
      if c = '\x7d' then some ([], r)
      else if c = ',' then do
        let (kv, r2) ← parseMember f r
        let (kvs, r3) ← parseObjRest f r2
        pure (kv :: kvs, r3)
      else none
termination_by structural f => f

end

/-- Model of `json.loads`: parse one value, then require only whitespace to
remain (Python raises `ValueError` on anything else; `none` models the raise). -/
def loads (s : String) : Option Json :=
  match parseVal (s.length + 1) s.data with
  | some (j, rest) => if skipWs rest = [] then some j else none
  | none => none


/-! ## The `datetime` import of `src/app.py` line 7

`from datetime import datetime, timedelta` binds the name `datetime` to the
`datetime` class.  Several call sites nevertheless spell
`datetime.datetime.now(datetime.UTC)`, an attribute lookup of `datetime` (and
`UTC`) on that class; both lookups raise `AttributeError` because they are
names of the shadowed `datetime` module, not attributes of the class. -/

/-- Attributes of the `datetime` class that `src/app.py` mentions: `now`
(line 107) and `fromisoformat` (line 61) exist; `datetime` and `UTC` do not. -/
def datetimeClassHasAttr : String → Bool
  | "now" => true
  | "fromisoformat" => true
  | "strftime" => true
  | _ => false

/-- Evaluate the Python expression `datetime.<attr>` where `datetime` is the
class bound by line 7; a missing attribute raises `AttributeError`. -/
def dtClassGetAttr (attr : String) : Except PyErr Unit :=
  if datetimeClassHasAttr attr then .ok () else .error (.attributeError attr)

/-- The error raised by every `datetime.datetime.…` expression in the file. -/
def dtAttrError : PyErr := .attributeError "datetime"

/-- A parsed timestamp as `datetime.fromisoformat` returns it (the program
never uses the value on a path that executes, so only its validation
matters). -/
structure PyDatetime where
  year : Nat
  month : Nat
  day : Nat
  hour : Nat
  minute : Nat
  second : Nat
  deriving DecidableEq

/-- Numeric value of one ASCII digit character. -/
def dv (c : Char) : Nat := c.toNat - 48

/-- Days in a month (Gregorian), as `datetime.fromisoformat` validates them. -/
def daysInMonth (y m : Nat) : Nat :=
  if m = 2 then (if y % 4 = 0 ∧ (y % 100 ≠ 0 ∨ y % 400 = 0) then 29 else 28)
  else if m = 4 ∨ m = 6 ∨ m = 9 ∨ m = 11 then 30
  else 31

/-- Model of `parse_utc_iso` (src/app.py lines 57-61): strip one trailing
`Z`, then `datetime.fromisoformat`.  The model accepts the
`YYYY-MM-DDTHH:MM:SS` shape the program itself writes (`fromisoformat` also
accepts other ISO-8601 variants, which no claim exercises); a failed parse is
`ValueError`. -/
def parse_utc_iso (s : String) : Except PyErr PyDatetime :=
  let cs := if s.data.getLast? = some 'Z' then s.data.dropLast else s.data
  match cs with
  | [y1, y2, y3, y4, '-', m1, m2, '-', d1, d2, 'T', h1, h2, ':', n1, n2, ':', s1, s2] =>
    if [y1, y2, y3, y4, m1, m2, d1, d2, h1, h2, n1, n2, s1, s2].all isDig then
      let y := ((dv y1 * 10 + dv y2) * 10 + dv y3) * 10 + dv y4
      let mo := dv m1 * 10 + dv m2
      let da := dv d1 * 10 + dv d2
      let h := dv h1 * 10 + dv h2
      let mi := dv n1 * 10 + dv n2
      let se := dv s1 * 10 + dv s2
      if 1 ≤ mo ∧ mo ≤ 12 ∧ 1 ≤ da ∧ da ≤ daysInMonth y mo ∧ h < 24 ∧ mi < 60 ∧ se < 60 then
        .ok ⟨y, mo, da, h, mi, se⟩
      else .error .valueError
    else .error .valueError
  | _ => .error .valueError

/-! ## Storage (src/app.py lines 64-109) -/

/-- MVP constants (src/app.py lines 12-13). -/
def DELAY_AFTER_LOGIN_MIN : Nat := 20

/-- Snooze interval after closing the popup (src/app.py line 13). -/
def SNOOZE_AFTER_CLOSE_MIN : Nat := 30

/-- The filesystem as the program sees it: the contents of `DATA_JSON` and of
`COMPLETED_MD` (`none` = file does not exist). -/
structure Store where
  dataJson : Option String
  completedMd : Option String
  deriving DecidableEq

/-- Markdown file contents written on first run (src/app.py lines 66-73). -/
def defaultMdText : String :=
  "# 2026 Reading List (Completed)\n\n## Completed Items\n\n## In Progress\n\n- [ ] Preacher Man\n\n"

/-- The seed document written on first run (src/app.py lines 75-82). -/
def seedDoc : Json :=
  .obj [("active", .arr [
    .obj [("title", .str "Preacher Man"), ("last_page", .int 0), ("kind", .str "book")],
    .obj [("title", .str "Farnam Street"), ("last_page", .int 0), ("kind", .str "blog")],
    .obj [("title", .str "Example Article: Notes on Learning"), ("last_page", .int 0),
          ("kind", .str "article")]]),
   ("next_popup_not_before", .null)]

/-- The empty default document written when recovery resets the store
(src/app.py line 97). -/
def emptyDoc : Json := .obj [("active", .arr []), ("next_popup_not_before", .null)]

/-- Model of `ensure_storage` (src/app.py lines 64-83): create the markdown
file and the JSON document if absent; pre-existing files are left untouched.
(Directory creation, whose failure would propagate, is not modelled.) -/
def ensure_storage (fs : Store) : Store :=
  { dataJson := some (fs.dataJson.getD (dumps seedDoc)),
    completedMd := some (fs.completedMd.getD defaultMdText) }

/-- Model of `load_data` (src/app.py lines 86-99): `ensure_storage`, read and
`json.loads` the document.  On a parse failure the `except` block first
builds the backup file name, whose f-string evaluates
`datetime.datetime.now(datetime.UTC)` (line 92) outside the inner
`try`, so that lookup's `AttributeError` propagates out of `load_data`; the
rest of the handler (best-effort backup, reset to `emptyDoc`, return the
default) is unreachable but modelled after the raise for reference. -/
def load_data (fs : Store) : Except PyErr (Json × Store) := do
  let fs1 := ensure_storage fs
  match loads (fs1.dataJson.getD "") with
  | some j => pure (j, fs1)
  | none => do
    let _ ← dtClassGetAttr "datetime"
    pure (emptyDoc, { fs1 with dataJson := some (dumps emptyDoc) })

/-- Model of `save_data` (src/app.py lines 102-103): overwrite `DATA_JSON`
wholesale with `json.dumps(data, indent=2)`. -/
def save_data (data : Json) (fs : Store) : Store :=
  { fs with dataJson := some (dumps data) }

/-- A calendar date, standing for the value of `datetime.now()` on the day a
completion is logged. -/
structure Date where
  year : Nat
  month : Nat
  day : Nat
  deriving DecidableEq

/-- Decimal digits of `n`, left-padded with zeros to width `w` (the
behaviour of `strftime` numeric fields). -/
def padNat (w n : Nat) : String :=
  ⟨List.replicate (w - (natDigits n).length) '0' ++ natDigits n⟩

/-- Model of `datetime.now().strftime("%Y-%m-%d")` for a given date. -/
def fmtYMD (d : Date) : String :=
  padNat 4 d.year ++ "-" ++ padNat 2 d.month ++ "-" ++ padNat 2 d.day

/-- The markdown line written for a completed item (src/app.py line 107). -/
def completedLine (title : String) (last_page : Int) (kind : String) (today : Date) : String :=
  "- **" ++ title ++ "** (" ++ kind ++ ") — completed at page **" ++ intRepr last_page ++
    "** on " ++ fmtYMD today ++ "\n"

/-- Model of `append_completed_md` (src/app.py lines 106-109): append one
formatted line to the markdown file (opening in append mode creates the file
if it is missing). -/
def append_completed_md (title : String) (last_page : Int) (kind : String) (today : Date)
    (fs : Store) : Store :=
  { fs with completedMd := some (fs.completedMd.getD "" ++ completedLine title last_page kind today) }

/-! ## Json field access, modelling Python dict operations -/

/-- First binding of `k` in an association list (parsed Python dicts never
carry duplicate keys, so first = only). -/
def lookupField : List (String × Json) → String → Option Json
  | [], _ => none
  | (k1, v) :: rest, k => if k1 = k then some v else lookupField rest k

/-- Model of `d[k]` / `d.get(k)` lookup on a JSON object. -/
def Json.getField : Json → String → Option Json
  | .obj kvs, k => lookupField kvs k
  | _, _ => none

/-- Model of Python `d.get(k)`: `None` when the key is missing. -/
def dictGet (j : Json) (k : String) : Json :=
  (j.getField k).getD .null

/-- Replace the value of `k` in place (Python dict assignment keeps the key's
position), appending the binding if the key is new. -/
def setFieldList : List (String × Json) → String → Json → List (String × Json)
  | [], k, v => [(k, v)]
  | (k1, v1) :: rest, k, v =>
    if k1 = k then (k, v) :: rest else (k1, v1) :: setFieldList rest k v

/-- Model of `d[k] = v` on a JSON object (assignment to a non-dict would
raise `TypeError`; the program only assigns into dicts it created). -/
def Json.setField : Json → String → Json → Json
  | .obj kvs, k, v => .obj (setFieldList kvs k v)
  | j, _, _ => j

/-- Model of Python truthiness for the JSON values the program tests. -/
def truthy : Json → Bool
  | .null => false
  | .bool b => b
  | .int n => n ≠ 0
  | .str s => s ≠ ""
  | .arr xs => !xs.isEmpty
  | .obj kvs => !kvs.isEmpty

/-! ## The App scheduler state (src/app.py lines 431-508) -/

/-- State of the running `App`: the in-memory document, whether a reminder
popup window exists, the remembered `after` id, and the Tk event queue
restricted to pending `show_popup` callbacks, as (id, delay-seconds) pairs.
`next_id` feeds fresh `after` ids. -/
structure AppState where
  data : Json
  popup_handle : Bool
  scheduled_popup_id : Option Nat
  pending : List (Nat × Nat)
  next_id : Nat

/-- Model of `App.schedule_popup_in_seconds` (src/app.py lines 458-464):
`after_cancel` the remembered id if any (cancelling an already-fired id
raises, swallowed by the inner `try`; removing a non-member id from the queue
models that), then `after` a new callback and remember its id. -/
def schedule_popup_in_seconds (st : AppState) (seconds : Nat) : AppState :=
  let pending := match st.scheduled_popup_id with
    | some i => st.pending.filter (fun e => e.1 ≠ i)
    | none => st.pending
  { st with pending := pending ++ [(st.next_id, seconds)],
            scheduled_popup_id := some st.next_id,
            next_id := st.next_id + 1 }

/-- The `try` block of `App.__init__` (src/app.py lines 446-453), which wants
to arm the scheduler for the remaining snooze delay.  Every control path
raises and is swallowed by the bare `except`: `parse_utc_iso` may raise
`ValueError`; after a successful parse, the delay computation
`(dt - datetime.datetime.now(datetime.UTC)).total_seconds()` evaluates
`datetime.datetime`, raising `AttributeError`; a non-string `not_before`
makes `parse_utc_iso` raise at `endswith`.  So the block never arms and
`__init__` always falls through to the default delay. -/
def initTryArm (not_before : Json) : Option Nat :=
  match not_before with
  | .str s =>
    match parse_utc_iso s with
    | .error _ => none
    | .ok _dt => none
  | _ => none

/-- Model of `App.__init__` (src/app.py lines 432-456) after `load_data`:
decide the first popup time.  `--popup-now` skips the snooze check. -/
def App.init (argv : List String) (fs : Store) : Except PyErr (AppState × Store) := do
  let (data, fs1) ← load_data fs
  let st : AppState :=
    { data := data, popup_handle := false, scheduled_popup_id := none,
      pending := [], next_id := 0 }
  let not_before := dictGet data "next_popup_not_before"
  let force_popup_now := argv.contains "--popup-now"
  if truthy not_before && !force_popup_now then
    match initTryArm not_before with
    | some delay => pure (schedule_popup_in_seconds st delay, fs1)
    | none => pure (schedule_popup_in_seconds st (DELAY_AFTER_LOGIN_MIN * 60), fs1)
  else
    pure (schedule_popup_in_seconds st (DELAY_AFTER_LOGIN_MIN * 60), fs1)

/-- The snooze re-check at fire time (src/app.py lines 468-477).  As in
`initTryArm`, with a set timestamp the comparison line evaluates
`datetime.datetime` and raises, the bare `except` swallows it, and the
re-arm branch is dead: the check never stops a fire. -/
def fireSnoozeCheck (not_before : Json) : Option Nat :=
  match not_before with
  | .str s =>
    if s = "" then none
    else
      match parse_utc_iso s with
      | .error _ => none
      | .ok _dt => none
  | _ => none

/-- Model of `App.show_popup` (src/app.py lines 466-488), run when the timer
fires: re-check the snooze (see `fireSnoozeCheck`), discard the fire if a
popup window already exists, otherwise reload the document and open the
popup. -/
def show_popup (st : AppState) (fs : Store) : Except PyErr (AppState × Store) := do
  match fireSnoozeCheck (dictGet st.data "next_popup_not_before") with
  | some delay => pure (schedule_popup_in_seconds st delay, fs)
  | none =>
    if st.popup_handle then pure (st, fs)
    else do
      let (d, fs1) ← load_data fs
      pure ({ st with data := d, popup_handle := true }, fs1)

/-- Seconds since the Unix epoch, the model's clock. -/
abbrev EpochSec := Nat

/-- Convert a day count since 1970-01-01 to a Gregorian date
(valid for non-negative day counts). -/
def civilFromDays (z0 : Nat) : Nat × Nat × Nat :=
  let z := z0 + 719468
  let era := z / 146097
  let doe := z % 146097
  let yoe := (doe - doe / 1460 + doe / 36524 - doe / 146096) / 365
  let y := yoe + era * 400
  let doy := doe - (365 * yoe + yoe / 4 - yoe / 100)
  let mp := (5 * doy + 2) / 153
  let d := doy - (153 * mp + 2) / 5 + 1
  let m := if mp < 10 then mp + 3 else mp - 9
  (if m ≤ 2 then y + 1 else y, m, d)

/-- ISO rendering `dt.isoformat(timespec="seconds")` of an aware UTC
datetime given as epoch seconds; an aware datetime renders with a `+00:00`
offset suffix. -/
def isoOfEpoch (t : EpochSec) : String :=
  let md := civilFromDays (t / 86400)
  let s := t % 86400
  padNat 4 md.1 ++ "-" ++ padNat 2 md.2.1 ++ "-" ++ padNat 2 md.2.2 ++ "T" ++
    padNat 2 (s / 3600) ++ ":" ++ padNat 2 (s % 3600 / 60) ++ ":" ++ padNat 2 (s % 60) ++ "+00:00"

/-- Model of `App.snooze_30m` (src/app.py lines 490-496).  Its first
statement evaluates `datetime.datetime.now(datetime.UTC)`; the attribute
lookup raises `AttributeError`, and `snooze_30m` has no handler, so the
call raises before anything is written or scheduled.  The intended remainder
(persist `now + 30min`, re-arm for 30 minutes) is modelled after the raise
and is unreachable. -/
def snooze_30m (now : EpochSec) (st : AppState) (fs : Store) :
    Except PyErr (AppState × Store) := do
  let _ ← dtClassGetAttr "datetime"
  let iso := isoOfEpoch (now + SNOOZE_AFTER_CLOSE_MIN * 60) ++ "Z"
  let data := st.data.setField "next_popup_not_before" (.str iso)
  let fs1 := save_data data fs
  pure (schedule_popup_in_seconds { st with data := data } (SNOOZE_AFTER_CLOSE_MIN * 60), fs1)

/-- The popup's `Close` handler (src/app.py lines 426-428 wired to
`snooze_30m` at line 487): destroy the window, then `snooze_30m`.  The
`AttributeError` escapes into Tk's callback reporter, which prints it and
continues, so the state as of the raise is what remains. -/
def popup_close (now : EpochSec) (st : AppState) (fs : Store) :
    AppState × Store × Option PyErr :=
  let st1 := { st with popup_handle := false }
  match snooze_30m now st1 fs with
  | .ok (st2, fs2) => (st2, fs2, none)
  | .error e => (st1, fs, some e)

/-- Cancelling the duration prompt (src/app.py lines 499-503): `ask_minutes`
returned `None`, so `start_read_flow` calls `snooze_30m`, which raises. -/
def duration_prompt_cancel (now : EpochSec) (st : AppState) (fs : Store) :
    AppState × Store × Option PyErr :=
  match snooze_30m now st fs with
  | .ok (st2, fs2) => (st2, fs2, none)
  | .error e => (st, fs, some e)

/-! ## Reading-list items and documents

The program's own documents are dicts of the fixed shape
`\x7b"active": [item…], "next_popup_not_before": str|null\x7d` with items
carrying exactly the keys `title`, `last_page`, `kind` (seed data lines
75-82, editor writes lines 204/216, log writes line 566).  The editor layer
is modelled over that shape; `itemToJson`/`docToJson` relate it to the raw
`Json` the storage layer moves around. -/

/-- A reading-list entry as the program creates it. -/
structure Item where
  title : String
  last_page : Int
  kind : String
  deriving DecidableEq

/-- The item dict, with the key order of the seed data and of the log form's
append (the editor writes the same keys in the order title, kind, last_page,
which denotes an equal Python dict). -/
def itemToJson (it : Item) : Json :=
  .obj [("title", .str it.title), ("last_page", .int it.last_page), ("kind", .str it.kind)]

/-- The persisted document: active list plus snooze timestamp. -/
structure Doc where
  active : List Item
  next_popup_not_before : Option String
  deriving DecidableEq

/-- The document dict held by the running program. -/
def docToJson (d : Doc) : Json :=
  .obj [("active", .arr (d.active.map itemToJson)),
        ("next_popup_not_before",
          match d.next_popup_not_before with
          | some s => .str s
          | none => .null)]

/-! ## ReadingListEditor (src/app.py lines 112-249) -/

/-- Editor window state: the document it edits, the listbox selection, the
`new_item_mode` flag and the three entry fields. -/
structure EditorState where
  data : Doc
  selected : Option Nat
  new_item_mode : Bool
  title_var : String
  page_var : String
  kind_var : String
  deriving DecidableEq

/-- Outcome of an editor action: a modal validation error (fields kept, form
open, nothing written) or a completed save. -/
inductive EditorOutcome where
  | validationError (msg : String)
  | saved
  deriving DecidableEq

/-- The title actually saved (src/app.py line 193):
`self.title_var.get().strip() or "Untitled"`. -/
def saveTitle (st : EditorState) : String :=
  if pyStrip st.title_var = "" then "Untitled" else pyStrip st.title_var

/-- The kind actually saved (src/app.py line 201): `self.kind_var.get() or "book"`. -/
def saveKind (st : EditorState) : String :=
  if st.kind_var = "" then "book" else st.kind_var

/-- The page string fed to `int(...)` (src/app.py line 195):
`self.page_var.get().strip() or "0"`. -/
def savePageStr (st : EditorState) : String :=
  if pyStrip st.page_var = "" then "0" else pyStrip st.page_var

/-- Model of `ReadingListEditor.save_selected` (src/app.py lines 191-221).
`int(...)` failure and a negative page land in the same `except ValueError`
handler: show the error, keep everything unchanged.  Otherwise append (in
new-item mode or with no selection) or replace in place, persist via
`on_save` = `save_data`, refresh the list (clearing the fields) and
re-select. -/
def save_selected (st : EditorState) (fs : Store) : EditorState × Store × EditorOutcome :=
  let idx := st.selected
  let title := saveTitle st
  match pyInt (savePageStr st) with
  | none => (st, fs, .validationError "Last page must be a non-negative integer.")
  | some page =>
    if page < 0 then (st, fs, .validationError "Last page must be a non-negative integer.")
    else
      let kind := saveKind st
      if st.new_item_mode || idx.isNone then
        let data1 : Doc := { st.data with active := st.data.active ++ [⟨title, page, kind⟩] }
        let fs1 := save_data (docToJson data1) fs
        ({ st with data := data1, new_item_mode := false, title_var := "", page_var := "",
                   kind_var := "book", selected := some (data1.active.length - 1) },
         fs1, .saved)
      else
        match idx with
        | some i =>
          let data1 : Doc := { st.data with active := st.data.active.set i ⟨title, page, kind⟩ }
          let fs1 := save_data (docToJson data1) fs
          ({ st with data := data1, title_var := "", page_var := "", kind_var := "book",
                     selected := some i },
           fs1, .saved)
        | none => (st, fs, .saved)

/-- Model of `ReadingListEditor.mark_completed` (src/app.py lines 233-243):
with no selection just show an info box; otherwise append the completed line
to the markdown file, `del` the item from `active`, persist, refresh (which
clears fields and selection).  `curselection` only yields indices of
displayed rows, so an in-range selection is a precondition of the
interesting case; an out-of-range index is returned unchanged (Python would
raise `IndexError`, which cannot happen). -/
def mark_completed (st : EditorState) (today : Date) (fs : Store) : EditorState × Store :=
  match st.selected with
  | none => (st, fs)
  | some idx =>
    match st.data.active.get? idx with
    | none => (st, fs)
    | some item =>
      let fs1 := append_completed_md item.title item.last_page item.kind today fs
      let data1 : Doc := { st.data with active := st.data.active.eraseIdx idx }
      let fs2 := save_data (docToJson data1) fs1
      ({ st with data := data1, selected := none, title_var := "", page_var := "",
                 kind_var := "book" },
       fs2)

/-! ## LogWindow (src/app.py lines 315-361) and the log-submit flow -/

/-- Outcome of `LogWindow.submit`: a modal error with the form kept open, or
a successful hand-off of `(title, page)` to `on_submit` followed by
`destroy`. -/
inductive SubmitOutcome where
  | errorKeepOpen (msg : String)
  | submitted (title : String) (page : Int)
  deriving DecidableEq

/-- Model of `LogWindow.submit` (src/app.py lines 347-361): the stripped
title must be non-empty; `int(page_var.strip())` must succeed and be
non-negative, else the error dialog shows and the form stays open. -/
def LogWindow.submit (choice_var page_var : String) : SubmitOutcome :=
  let title := pyStrip choice_var
  if title = "" then .errorKeepOpen "Select a title."
  else
    match pyInt (pyStrip page_var) with
    | none => .errorKeepOpen "Last page must be a non-negative integer."
    | some page =>
      if page < 0 then .errorKeepOpen "Last page must be a non-negative integer."
      else .submitted title page

/-- Python `item.get("title") == title` for an item dict against a string:
equal only when the key holds that exact string. -/
def titleMatches (it : Json) (t : String) : Bool :=
  match dictGet it "title" with
  | .str s => s = t
  | _ => false

/-- The `for` loop of `on_submit` (src/app.py lines 558-563): set
`last_page` on the first item whose title equals `title`, report whether any
matched. -/
def updateFirstByTitle : List Json → String → Int → List Json × Bool
  | [], _, _ => ([], false)
  | it :: rest, t, p =>
    if titleMatches it t then (it.setField "last_page" (.int p) :: rest, true)
    else
      let r := updateFirstByTitle rest t p
      (it :: r.1, r.2)

/-- The new item appended when no title matches (src/app.py line 566). -/
def newLogItem (title : String) (page : Int) : Json :=
  .obj [("title", .str title), ("last_page", .int page), ("kind", .str "book")]

/-- The document update performed by `on_submit` (src/app.py lines 556-566):
update the first title match in `data.get("active", [])`, else
`data.setdefault("active", []).append(new item)`.  (A non-list value under
`"active"` cannot arise from program-written documents and is returned
unchanged.) -/
def on_submit_update (data : Json) (title : String) (page : Int) : Json :=
  match data.getField "active" with
  | some (.arr items) =>
    let r := updateFirstByTitle items title page
    if r.2 then data.setField "active" (.arr r.1)
    else data.setField "active" (.arr (items ++ [newLogItem title page]))
  | some _ => data
  | none => data.setField "active" (.arr [newLogItem title page])

/-- The whole `on_submit` callback (src/app.py lines 556-574): update the
document, `save_data` it, open the editor, then call `snooze_30m` — whose
`AttributeError` escapes to Tk's callback reporter after the save has
already happened. -/
def App.log_submit (now : EpochSec) (st : AppState) (fs : Store) (title : String) (page : Int) :
    AppState × Store × Option PyErr :=
  let data1 := on_submit_update st.data title page
  let st1 := { st with data := data1 }
  let fs1 := save_data data1 fs
  match snooze_30m now st1 fs1 with
  | .ok (st2, fs2) => (st2, fs2, none)
  | .error e => (st1, fs1, some e)

/-! ## Auxiliary definitions for the serialiser/parser correspondence -/

/-- The tail input following a serialised number must not begin with a digit
(in serialiser output it begins with a separator or a closing bracket or is
empty). -/
def notDigStart : List Char → Prop
  | [] => True
  | c :: _ => isDig c = false

mutual

/-- Fuel sufficient for `parseVal` to parse the serialisation of `j`. -/
def fuelNeed : Json → Nat
  | .null => 1
  | .bool _ => 1
  | .int _ => 1
  | .str _ => 1
  | .arr [] => 1
  | .arr (x :: xs) => 1 + max (fuelNeed x) (fuelRestA xs)
  | .obj [] => 1
  | .obj ((_, v) :: kvs) => 1 + max (1 + fuelNeed v) (fuelRestO kvs)
termination_by structural j => j

/-- Fuel sufficient for `parseArrRest` on the serialised tail `xs`. -/
def fuelRestA : List Json → Nat
  | [] => 1
  | x :: xs => 1 + max (fuelNeed x) (fuelRestA xs)
termination_by structural xs => xs

/-- Fuel sufficient for `parseObjRest` on the serialised tail `kvs`. -/
def fuelRestO : List (String × Json) → Nat
  | [] => 1
  | (_, v) :: kvs => 1 + max (1 + fuelNeed v) (fuelRestO kvs)
termination_by structural kvs => kvs

end

/-- The serialisation of `j` parses back to `j` at any depth, before any
tail that does not begin with a digit, with any sufficient fuel. -/
def ParsesBack (j : Json) : Prop :=
  ∀ d rest f, fuelNeed j ≤ f → notDigStart rest →
    parseVal f (dumpVal j d ++ rest) = some (j, rest)

/-! # Theorems

Serialiser/parser correspondence lemmas first, then state-machine lemmas,
then the claim theorems. -/

theorem digitChar_toNat (k : Nat) (h : k < 10) : (digitChar k).toNat = 48 + k := by
  interval_cases k <;> decide

theorem isDig_digitChar (k : Nat) (h : k < 10) : isDig (digitChar k) = true := by
  interval_cases k <;> decide

theorem digitChar_ne_zero (k : Nat) (h0 : 0 < k) (h : k < 10) : digitChar k ≠ '0' := by
  interval_cases k <;> decide

theorem natDigitsF_fuel (f : Nat) :
    ∀ g n, n < f → n < g → natDigitsF f n = natDigitsF g n := by
  induction f with
  | zero => intro g n h _; omega
  | succ f ih =>
    intro g n hf hg
    obtain ⟨g, rfl⟩ : ∃ g', g = g' + 1 := ⟨g - 1, by omega⟩
    simp only [natDigitsF]
    by_cases h10 : n < 10
    · simp [h10]
    · have hd : n / 10 < n := Nat.div_lt_self (by omega) (by omega)
      simp only [h10, if_false]
      rw [ih g (n / 10) (by omega) (by omega)]

theorem natDigits_eq (n : Nat) :
    natDigits n =
      if n < 10 then [digitChar n] else natDigits (n / 10) ++ [digitChar (n % 10)] := by
  by_cases h : n < 10
  · simp only [natDigits, natDigitsF, h, if_true]
  · have hd : n / 10 < n := Nat.div_lt_self (by omega) (by omega)
    simp only [natDigits, h, if_false]
    conv_lhs => rw [show natDigitsF (n + 1) n = natDigitsF n (n / 10) ++ [digitChar (n % 10)]
      from by simp only [natDigitsF, h, if_false]]
    rw [natDigitsF_fuel n (n / 10 + 1) (n / 10) (by omega) (by omega)]

theorem natDigits_ne_nil (n : Nat) : natDigits n ≠ [] := by
  rw [natDigits_eq]
  split <;> simp

theorem natDigits_all_dig (n : Nat) : ∀ c ∈ natDigits n, isDig c = true := by
  induction n using Nat.strong_induction_on with
  | _ n ih =>
    rw [natDigits_eq]
    by_cases h : n < 10
    · simpa [h] using isDig_digitChar n h
    · simp only [h, if_false]
      intro c hc
      rcases List.mem_append.mp hc with h1 | h2
      · exact ih (n / 10) (Nat.div_lt_self (by omega) (by omega)) c h1
      · rw [List.mem_singleton.mp h2]
        exact isDig_digitChar _ (Nat.mod_lt _ (by omega))

theorem natDigits_head (n : Nat) :
    ∃ c t, natDigits n = c :: t ∧ isDig c = true ∧ (0 < n → c ≠ '0') := by
  induction n using Nat.strong_induction_on with
  | _ n ih =>
    rw [natDigits_eq]
    by_cases h : n < 10
    · exact ⟨digitChar n, [], by simp [h], isDig_digitChar n h,
        fun h0 => digitChar_ne_zero n h0 h⟩
    · simp only [h, if_false]
      obtain ⟨c, t, heq, hd, hz⟩ := ih (n / 10) (Nat.div_lt_self (by omega) (by omega))
      exact ⟨c, t ++ [digitChar (n % 10)], by rw [heq]; rfl, hd, fun _ => hz (by omega)⟩

theorem digitsVal_nil (a : Nat) : digitsVal a [] = a := rfl

theorem digitsVal_cons (a : Nat) (c : Char) (cs : List Char) :
    digitsVal a (c :: cs) = digitsVal (a * 10 + (c.toNat - 48)) cs := rfl

theorem digitsVal_append (xs ys : List Char) :
    ∀ a, digitsVal a (xs ++ ys) = digitsVal (digitsVal a xs) ys := by
  induction xs with
  | nil => intro a; rfl
  | cons c cs ih =>
    intro a
    rw [List.cons_append, digitsVal_cons, digitsVal_cons]
    exact ih _

theorem digitsVal_natDigits (n : Nat) :
    ∀ a, digitsVal a (natDigits n) = a * 10 ^ (natDigits n).length + n := by
  induction n using Nat.strong_induction_on with
  | _ n ih =>
    intro a
    rw [natDigits_eq]
    by_cases h : n < 10
    · simp only [h, if_true, digitsVal_cons, digitsVal_nil, List.length_singleton,
        digitChar_toNat n h, pow_one]
      omega
    · have hd : n / 10 < n := Nat.div_lt_self (by omega) (by omega)
      simp only [h, if_false]
      rw [digitsVal_append, ih (n / 10) hd a, List.length_append, List.length_singleton,
        digitsVal_cons, digitChar_toNat (n % 10) (Nat.mod_lt _ (by omega))]
      rw [digitsVal_nil, pow_succ, ← mul_assoc]
      generalize a * 10 ^ (natDigits (n / 10)).length = C
      omega

theorem takeDigits_cons (a : Nat) (c : Char) (cs : List Char) :
    takeDigits a (c :: cs) =
      if isDig c then takeDigits (a * 10 + (c.toNat - 48)) cs else (a, c :: cs) := rfl

theorem takeDigits_all (xs : List Char) :
    ∀ a rest, xs.all isDig → takeDigits a (xs ++ rest) = takeDigits (digitsVal a xs) rest := by
  induction xs with
  | nil => intro a rest _; rfl
  | cons c cs ih =>
    intro a rest hall
    simp only [List.all_cons, Bool.and_eq_true] at hall
    rw [List.cons_append, takeDigits_cons, if_pos hall.1, digitsVal_cons]
    exact ih _ rest hall.2

theorem takeDigits_stop (a : Nat) (rest : List Char) (h : notDigStart rest) :
    takeDigits a rest = (a, rest) := by
  cases rest with
  | nil => rfl
  | cons c t =>
    simp only [notDigStart] at h
    rw [takeDigits_cons, if_neg (by simp [h])]

theorem parseJNumNat_natDigits (n : Nat) (rest : List Char) (hrest : notDigStart rest) :
    parseJNumNat (natDigits n ++ rest) = some (n, rest) := by
  by_cases h0 : n = 0
  · subst h0
    have h00 : natDigits 0 = ['0'] := rfl
    rw [h00]
    simp [parseJNumNat]
  · obtain ⟨c, t, heq, hd, hz⟩ := natDigits_head n
    have hz' := hz (by omega)
    have ht : t.all isDig := by
      rw [List.all_eq_true]
      intro c' hc'
      exact natDigits_all_dig n c' (by rw [heq]; exact List.mem_cons_of_mem _ hc')
    rw [heq, List.cons_append]
    show (if c = '0' then some (0, t ++ rest)
      else if isDig c then some (takeDigits (c.toNat - 48) (t ++ rest)) else none) = _
    rw [if_neg hz', if_pos hd]
    rw [takeDigits_all t _ rest ht, takeDigits_stop _ rest hrest]
    have hv : digitsVal (c.toNat - 48) t = digitsVal 0 (natDigits n) := by
      rw [heq, digitsVal_cons]
      simp
    rw [hv, digitsVal_natDigits n 0]
    simp

theorem parseJNum_cons (c : Char) (cs : List Char) :
    parseJNum (c :: cs) =
      if c = '-' then (parseJNumNat cs).map (fun p => (-(p.1 : Int), p.2))
      else (parseJNumNat (c :: cs)).map (fun p => ((p.1 : Int), p.2)) := rfl

theorem intRepr_data (i : Int) :
    (intRepr i).data = if i < 0 then '-' :: natDigits i.natAbs else natDigits i.natAbs := by
  unfold intRepr
  split <;> rfl

theorem parseJNum_intRepr (i : Int) (rest : List Char) (hrest : notDigStart rest) :
    parseJNum ((intRepr i).data ++ rest) = some (i, rest) := by
  rw [intRepr_data]
  by_cases h : i < 0
  · rw [if_pos h, List.cons_append, parseJNum_cons, if_pos rfl,
      parseJNumNat_natDigits _ _ hrest]
    show some (-(i.natAbs : Int), rest) = some (i, rest)
    have hi : -(i.natAbs : Int) = i := by omega
    rw [hi]
  · rw [if_neg h]
    obtain ⟨c, t, heq, hd, _⟩ := natDigits_head i.natAbs
    have hc : c ≠ '-' := by
      intro he
      subst he
      exact absurd hd (by decide)
    rw [heq, List.cons_append, parseJNum_cons, if_neg hc, ← List.cons_append, ← heq,
      parseJNumNat_natDigits _ _ hrest]
    show some ((i.natAbs : Int), rest) = some (i, rest)
    have hi : (i.natAbs : Int) = i := by omega
    rw [hi]

theorem hexDigitChar_val (k : Nat) (h : k < 16) : hexVal (hexDigitChar k) = some k := by
  interval_cases k <;> decide

theorem hexQuad_hex4 (n : Nat) (h : n < 65536) :
    hexQuad (hexDigitChar (n / 4096 % 16)) (hexDigitChar (n / 256 % 16))
      (hexDigitChar (n / 16 % 16)) (hexDigitChar (n % 16)) = some n := by
  unfold hexQuad
  rw [hexDigitChar_val _ (Nat.mod_lt _ (by omega)), hexDigitChar_val _ (Nat.mod_lt _ (by omega)),
    hexDigitChar_val _ (Nat.mod_lt _ (by omega)), hexDigitChar_val _ (Nat.mod_lt _ (by omega))]
  show some ((((n / 4096 % 16) * 16 + n / 256 % 16) * 16 + n / 16 % 16) * 16 + n % 16) = some n
  congr 1
  omega

theorem mkChar?_toNat (c : Char) : mkChar? c.toNat = some c := by
  have hv : c.toNat.isValidChar := c.valid
  unfold mkChar?
  rw [if_pos hv, Char.ofNat_toNat]

theorem char_valid_range (c : Char) :
    c.toNat < 0xd800 ∨ (0xdfff < c.toNat ∧ c.toNat < 0x110000) := c.valid

theorem psbF_quote (f : Nat) (r : List Char) :
    parseStrBodyF (f + 1) ('"' :: r) = some ([], r) := rfl

theorem psbF_esc_quote (f : Nat) (r : List Char) :
    parseStrBodyF (f + 1) ('\\' :: '"' :: r) =
      (parseStrBodyF f r).map (fun p => ('"' :: p.1, p.2)) := rfl

theorem psbF_esc_back (f : Nat) (r : List Char) :
    parseStrBodyF (f + 1) ('\\' :: '\\' :: r) =
      (parseStrBodyF f r).map (fun p => ('\\' :: p.1, p.2)) := rfl

theorem psbF_esc_b (f : Nat) (r : List Char) :
    parseStrBodyF (f + 1) ('\\' :: 'b' :: r) =
      (parseStrBodyF f r).map (fun p => ('\x08' :: p.1, p.2)) := rfl

theorem psbF_esc_f (f : Nat) (r : List Char) :
    parseStrBodyF (f + 1) ('\\' :: 'f' :: r) =
      (parseStrBodyF f r).map (fun p => ('\x0c' :: p.1, p.2)) := rfl

theorem psbF_esc_n (f : Nat) (r : List Char) :
    parseStrBodyF (f + 1) ('\\' :: 'n' :: r) =
      (parseStrBodyF f r).map (fun p => ('\n' :: p.1, p.2)) := rfl

theorem psbF_esc_r (f : Nat) (r : List Char) :
    parseStrBodyF (f + 1) ('\\' :: 'r' :: r) =
      (parseStrBodyF f r).map (fun p => ('\r' :: p.1, p.2)) := rfl

theorem psbF_esc_t (f : Nat) (r : List Char) :
    parseStrBodyF (f + 1) ('\\' :: 't' :: r) =
      (parseStrBodyF f r).map (fun p => ('\t' :: p.1, p.2)) := rfl


theorem psbF_esc_u (f : Nat) (r1 : List Char) :
    parseStrBodyF (f + 1) ('\\' :: 'u' :: r1) =
      (match parseU r1 with
      | none => none
      | some (ch, r2) => (parseStrBodyF f r2).map (fun p => (ch :: p.1, p.2))) := rfl

theorem psbF_plain (f : Nat) (c : Char) (r : List Char) (h1 : c ≠ '"') (h2 : c ≠ '\\')
    (h3 : ¬ c.toNat < 0x20) :
    parseStrBodyF (f + 1) (c :: r) = (parseStrBodyF f r).map (fun p => (c :: p.1, p.2)) := by
  conv_lhs => rw [parseStrBodyF.eq_def]
  dsimp only
  rw [if_neg h1, if_neg h2, if_neg h3]

theorem encChar_ctrl (c : Char) (h3 : c ≠ '\x08') (h4 : c ≠ '\x0c') (h5 : c ≠ '\n')
    (h6 : c ≠ '\r') (h7 : c ≠ '\t') (h : c.toNat < 0x20) :
    encChar c = '\\' :: 'u' :: hex4 c.toNat := by
  unfold encChar
  rw [if_neg (by rintro rfl; revert h; decide), if_neg (by rintro rfl; revert h; decide),
    if_neg h3, if_neg h4, if_neg h5, if_neg h6, if_neg h7, if_pos h]

theorem encChar_plain (c : Char) (h1 : c ≠ '"') (h2 : c ≠ '\\') (hlo : ¬ c.toNat < 0x20)
    (hhi : c.toNat ≤ 0x7e) : encChar c = [c] := by
  unfold encChar
  rw [if_neg h2, if_neg h1, if_neg (by rintro rfl; revert hlo; decide),
    if_neg (by rintro rfl; revert hlo; decide), if_neg (by rintro rfl; revert hlo; decide),
    if_neg (by rintro rfl; revert hlo; decide), if_neg (by rintro rfl; revert hlo; decide),
    if_neg hlo, if_pos hhi]

theorem encChar_bmp (c : Char) (hlo : 0x7e < c.toNat) (hhi : c.toNat < 0x10000) :
    encChar c = '\\' :: 'u' :: hex4 c.toNat := by
  unfold encChar
  rw [if_neg (by rintro rfl; revert hlo; decide), if_neg (by rintro rfl; revert hlo; decide),
    if_neg (by rintro rfl; revert hlo; decide), if_neg (by rintro rfl; revert hlo; decide),
    if_neg (by rintro rfl; revert hlo; decide), if_neg (by rintro rfl; revert hlo; decide),
    if_neg (by rintro rfl; revert hlo; decide), if_neg (by omega), if_neg (by omega),
    if_pos hhi]

theorem encChar_astral (c : Char) (h : 0x10000 ≤ c.toNat) :
    encChar c =
      ('\\' :: 'u' :: hex4 (0xd800 + (c.toNat - 0x10000) / 0x400)) ++
      ('\\' :: 'u' :: hex4 (0xdc00 + (c.toNat - 0x10000) % 0x400)) := by
  unfold encChar
  rw [if_neg (by rintro rfl; revert h; decide), if_neg (by rintro rfl; revert h; decide),
    if_neg (by rintro rfl; revert h; decide), if_neg (by rintro rfl; revert h; decide),
    if_neg (by rintro rfl; revert h; decide), if_neg (by rintro rfl; revert h; decide),
    if_neg (by rintro rfl; revert h; decide), if_neg (by omega), if_neg (by omega),
    if_neg (by omega)]

theorem hex4_cons (n : Nat) (r : List Char) :
    hex4 n ++ r =
      hexDigitChar (n / 4096 % 16) :: hexDigitChar (n / 256 % 16) ::
      hexDigitChar (n / 16 % 16) :: hexDigitChar (n % 16) :: r := rfl

theorem obind_some {α β : Type} (a : α) (f : α → Option β) : (some a).bind f = f a := rfl

theorem mbind_some {α β : Type} (a : α) (f : α → Option β) :
    (Bind.bind (some a) f : Option β) = f a := rfl

theorem parseU_cons (a b c2 d : Char) (r2 : List Char) :
    parseU (a :: b :: c2 :: d :: r2) = (hexQuad a b c2 d).bind (fun hi => parseU2 hi r2) := rfl

theorem parseU_single (ch : Char) (r : List Char) (hlt : ch.toNat < 0x10000) :
    parseU (hex4 ch.toNat ++ r) = some (ch, r) := by
  have hns : ¬(0xd800 ≤ ch.toNat ∧ ch.toNat < 0xdc00) := by
    rcases char_valid_range ch with h | h
    · omega
    · omega
  rw [hex4_cons, parseU_cons, hexQuad_hex4 ch.toNat hlt, obind_some]
  unfold parseU2
  rw [if_neg hns, mkChar?_toNat]
  rfl

theorem parseU_pair (ch : Char) (r : List Char) (hge : 0x10000 ≤ ch.toNat) :
    parseU (hex4 (0xd800 + (ch.toNat - 0x10000) / 0x400) ++
      ('\\' :: 'u' :: (hex4 (0xdc00 + (ch.toNat - 0x10000) % 0x400) ++ r))) = some (ch, r) := by
  have hv : ch.toNat < 0x110000 := by
    rcases char_valid_range ch with h | h
    · omega
    · omega
  have hq : (ch.toNat - 0x10000) / 0x400 < 0x400 := by omega
  have hm : (ch.toNat - 0x10000) % 0x400 < 0x400 := Nat.mod_lt _ (by omega)
  generalize hhi : 0xd800 + (ch.toNat - 0x10000) / 0x400 = hi
  generalize hlo : 0xdc00 + (ch.toNat - 0x10000) % 0x400 = lo
  rw [hex4_cons, hex4_cons, parseU_cons, hexQuad_hex4 hi (by omega), obind_some]
  unfold parseU2
  rw [if_pos ⟨by omega, by omega⟩]
  dsimp only
  rw [if_pos ⟨rfl, rfl⟩, hexQuad_hex4 lo (by omega), obind_some]
  unfold parseU3
  rw [if_pos ⟨by omega, by omega⟩,
    show 0x10000 + (hi - 0xd800) * 0x400 + (lo - 0xdc00) = ch.toNat from by omega,
    mkChar?_toNat]
  rfl

theorem encStr_cons (c : Char) (cs : List Char) :
    encStr (c :: cs) = encChar c ++ encStr cs := rfl

theorem psbF_encStr (s : List Char) :
    ∀ f rest, s.length < f → parseStrBodyF f (encStr s ++ '"' :: rest) = some (s, rest) := by
  induction s with
  | nil =>
    intro f rest hf
    obtain ⟨f, rfl⟩ : ∃ g, f = g + 1 := ⟨f - 1, by omega⟩
    exact psbF_quote f rest
  | cons c cs ih =>
    intro f rest hf
    obtain ⟨f, rfl⟩ : ∃ g, f = g + 1 := ⟨f - 1, by omega⟩
    have hf' : cs.length < f := by
      simp only [List.length_cons] at hf
      omega
    rw [encStr_cons, List.append_assoc]
    by_cases h1 : c = '\\'
    · subst h1
      rw [show encChar '\\' ++ (encStr cs ++ '"' :: rest) =
        '\\' :: '\\' :: (encStr cs ++ '"' :: rest) from rfl]
      rw [psbF_esc_back, ih f rest hf']
      rfl
    by_cases h2 : c = '"'
    · subst h2
      rw [show encChar '"' ++ (encStr cs ++ '"' :: rest) =
        '\\' :: '"' :: (encStr cs ++ '"' :: rest) from rfl]
      rw [psbF_esc_quote, ih f rest hf']
      rfl
    by_cases h3 : c = '\x08'
    · subst h3
      rw [show encChar '\x08' ++ (encStr cs ++ '"' :: rest) =
        '\\' :: 'b' :: (encStr cs ++ '"' :: rest) from rfl]
      rw [psbF_esc_b, ih f rest hf']
      rfl
    by_cases h4 : c = '\x0c'
    · subst h4
      rw [show encChar '\x0c' ++ (encStr cs ++ '"' :: rest) =
        '\\' :: 'f' :: (encStr cs ++ '"' :: rest) from rfl]
      rw [psbF_esc_f, ih f rest hf']
      rfl
    by_cases h5 : c = '\n'
    · subst h5
      rw [show encChar '\n' ++ (encStr cs ++ '"' :: rest) =
        '\\' :: 'n' :: (encStr cs ++ '"' :: rest) from rfl]
      rw [psbF_esc_n, ih f rest hf']
      rfl
    by_cases h6 : c = '\r'
    · subst h6
      rw [show encChar '\r' ++ (encStr cs ++ '"' :: rest) =
        '\\' :: 'r' :: (encStr cs ++ '"' :: rest) from rfl]
      rw [psbF_esc_r, ih f rest hf']
      rfl
    by_cases h7 : c = '\t'
    · subst h7
      rw [show encChar '\t' ++ (encStr cs ++ '"' :: rest) =
        '\\' :: 't' :: (encStr cs ++ '"' :: rest) from rfl]
      rw [psbF_esc_t, ih f rest hf']
      rfl
    by_cases h8 : c.toNat < 0x20
    · rw [encChar_ctrl c h3 h4 h5 h6 h7 h8,
        show ('\\' :: 'u' :: hex4 c.toNat) ++ (encStr cs ++ '"' :: rest) =
          '\\' :: 'u' :: (hex4 c.toNat ++ (encStr cs ++ '"' :: rest)) from rfl,
        psbF_esc_u, parseU_single c _ (by omega)]
      dsimp only
      rw [ih f rest hf']
      rfl
    by_cases h9 : c.toNat ≤ 0x7e
    · rw [encChar_plain c h2 h1 h8 h9,
        show ([c] : List Char) ++ (encStr cs ++ '"' :: rest) =
          c :: (encStr cs ++ '"' :: rest) from rfl,
        psbF_plain f c _ h2 h1 h8, ih f rest hf']
      rfl
    by_cases h10 : c.toNat < 0x10000
    · rw [encChar_bmp c (by omega) h10,
        show ('\\' :: 'u' :: hex4 c.toNat) ++ (encStr cs ++ '"' :: rest) =
          '\\' :: 'u' :: (hex4 c.toNat ++ (encStr cs ++ '"' :: rest)) from rfl,
        psbF_esc_u, parseU_single c _ h10]
      dsimp only
      rw [ih f rest hf']
      rfl
    · rw [encChar_astral c (by omega),
        show (('\\' :: 'u' :: hex4 (0xd800 + (c.toNat - 0x10000) / 0x400)) ++
            ('\\' :: 'u' :: hex4 (0xdc00 + (c.toNat - 0x10000) % 0x400))) ++
            (encStr cs ++ '"' :: rest) =
          '\\' :: 'u' :: (hex4 (0xd800 + (c.toNat - 0x10000) / 0x400) ++
            ('\\' :: 'u' :: (hex4 (0xdc00 + (c.toNat - 0x10000) % 0x400) ++
              (encStr cs ++ '"' :: rest)))) from by simp,
        psbF_esc_u, parseU_pair c _ (by omega)]
      dsimp only
      rw [ih f rest hf']
      rfl

set_option maxHeartbeats 1000000 in
theorem encChar_length_pos (c : Char) : 1 ≤ (encChar c).length := by
  unfold encChar
  split_ifs <;>
    simp only [hex4, List.length_cons, List.length_append, List.length_nil,
      List.length_singleton] <;>
    omega

theorem encStr_length_ge (s : List Char) : s.length ≤ (encStr s).length := by
  induction s with
  | nil => simp [encStr]
  | cons c cs ih =>
    rw [encStr_cons, List.length_append, List.length_cons]
    have := encChar_length_pos c
    omega

theorem parseStrBody_encStr (s rest : List Char) :
    parseStrBody (encStr s ++ '"' :: rest) = some (s, rest) := by
  unfold parseStrBody
  apply psbF_encStr
  have h1 := encStr_length_ge s
  simp only [List.length_append, List.length_cons]
  omega

theorem skipWs_cons (c : Char) (cs : List Char) :
    skipWs (c :: cs) = if isJWs c then skipWs cs else c :: cs := rfl

theorem skipWs_not_ws (c : Char) (cs : List Char) (h : isJWs c = false) :
    skipWs (c :: cs) = c :: cs := by
  rw [skipWs_cons, h]
  rfl

theorem skipWs_ws (c : Char) (cs : List Char) (h : isJWs c = true) :
    skipWs (c :: cs) = skipWs cs := by
  rw [skipWs_cons, h]
  rfl

theorem skipWs_replicate_space (n : Nat) :
    ∀ cs, skipWs (List.replicate n ' ' ++ cs) = skipWs cs := by
  induction n with
  | zero => intro cs; rfl
  | succ n ih =>
    intro cs
    rw [List.replicate_succ, List.cons_append, skipWs_ws ' ' _ (by decide)]
    exact ih cs

theorem skipWs_sp (d : Nat) (cs : List Char) : skipWs (sp d ++ cs) = skipWs cs :=
  skipWs_replicate_space (2 * d) cs

theorem skipWs_nl_sp (d : Nat) (cs : List Char) :
    skipWs ('\n' :: (sp d ++ cs)) = skipWs cs := by
  rw [skipWs_ws '\n' _ (by decide), skipWs_sp]

theorem ne_of_toNat_ne (c d : Char) (h : c.toNat ≠ d.toNat) : c ≠ d := by
  intro he
  exact h (by rw [he])

theorem isDig_bounds (c : Char) (h : isDig c = true) : 48 ≤ c.toNat ∧ c.toNat ≤ 57 := by
  simpa [isDig] using h

theorem isDig_ne (c z : Char) (h : isDig c = true) (hz : z.toNat < 48 ∨ 57 < z.toNat) :
    c ≠ z := by
  have hb := isDig_bounds c h
  refine ne_of_toNat_ne c z ?_
  omega

theorem isDig_not_ws (c : Char) (h : isDig c = true) : isJWs c = false := by
  have hb := isDig_bounds c h
  simp only [isJWs, Bool.or_eq_false_iff, decide_eq_false_iff_not]
  refine ⟨⟨⟨?_, ?_⟩, ?_⟩, ?_⟩
  · exact isDig_ne c ' ' h (by left; rw [show (' ' : Char).toNat = 32 from rfl]; omega)
  · exact isDig_ne c '\t' h (by left; rw [show ('\t' : Char).toNat = 9 from rfl]; omega)
  · exact isDig_ne c '\n' h (by left; rw [show ('\n' : Char).toNat = 10 from rfl]; omega)
  · exact isDig_ne c '\r' h (by left; rw [show ('\r' : Char).toNat = 13 from rfl]; omega)

theorem dumpVal_null (d : Nat) : dumpVal .null d = ['n', 'u', 'l', 'l'] := rfl

theorem dumpVal_true (d : Nat) : dumpVal (.bool true) d = ['t', 'r', 'u', 'e'] := rfl

theorem dumpVal_false (d : Nat) : dumpVal (.bool false) d = ['f', 'a', 'l', 's', 'e'] := rfl

theorem dumpVal_int (n : Int) (d : Nat) : dumpVal (.int n) d = (intRepr n).data := rfl

theorem dumpVal_str (s : String) (d : Nat) :
    dumpVal (.str s) d = '"' :: (encStr s.data ++ ['"']) := rfl

theorem dumpVal_arr_nil (d : Nat) : dumpVal (.arr []) d = ['[', ']'] := rfl

theorem dumpVal_arr_cons (x : Json) (xs : List Json) (d : Nat) :
    dumpVal (.arr (x :: xs)) d =
      '[' :: '\n' :: (sp (d + 1) ++ (dumpVal x (d + 1) ++ (dumpArr xs (d + 1) ++
        ('\n' :: (sp d ++ [']']))))) := rfl

theorem dumpVal_obj_nil (d : Nat) : dumpVal (.obj []) d = ['\x7b', '\x7d'] := rfl

theorem dumpVal_obj_cons (kv : String × Json) (kvs : List (String × Json)) (d : Nat) :
    dumpVal (.obj (kv :: kvs)) d =
      '\x7b' :: '\n' :: (sp (d + 1) ++ ('"' :: (encStr kv.1.data ++ ('"' :: ':' :: ' ' ::
        (dumpVal kv.2 (d + 1) ++ (dumpObj kvs (d + 1) ++
          ('\n' :: (sp d ++ ['\x7d'])))))))) := rfl

theorem dumpArr_nil (d : Nat) : dumpArr [] d = [] := rfl

theorem dumpArr_cons (x : Json) (xs : List Json) (d : Nat) :
    dumpArr (x :: xs) d = ',' :: '\n' :: (sp d ++ (dumpVal x d ++ dumpArr xs d)) := rfl

theorem dumpObj_nil (d : Nat) : dumpObj [] d = [] := rfl

theorem dumpObj_cons (kv : String × Json) (kvs : List (String × Json)) (d : Nat) :
    dumpObj (kv :: kvs) d =
      ',' :: '\n' :: (sp d ++ ('"' :: (encStr kv.1.data ++ ('"' :: ':' :: ' ' ::
        (dumpVal kv.2 d ++ dumpObj kvs d))))) := rfl

theorem dumpVal_head (j : Json) (d : Nat) :
    ∃ c t, dumpVal j d = c :: t ∧ isJWs c = false ∧ c ≠ ']' ∧ c ≠ '\x7d' ∧ c ≠ ',' := by
  cases j with
  | null => exact ⟨'n', _, dumpVal_null d, by decide, by decide, by decide, by decide⟩
  | bool b =>
    cases b with
    | true => exact ⟨'t', _, dumpVal_true d, by decide, by decide, by decide, by decide⟩
    | false => exact ⟨'f', _, dumpVal_false d, by decide, by decide, by decide, by decide⟩
  | int n =>
    rw [dumpVal_int, intRepr_data]
    by_cases h : n < 0
    · exact ⟨'-', _, by rw [if_pos h], by decide, by decide, by decide, by decide⟩
    · obtain ⟨c, t, heq, hd, _⟩ := natDigits_head n.natAbs
      refine ⟨c, t, by rw [if_neg h, heq], isDig_not_ws c hd, ?_, ?_, ?_⟩
      · exact isDig_ne c ']' hd (by right; rw [show (']' : Char).toNat = 93 from rfl]; omega)
      · exact isDig_ne c '\x7d' hd (by right; rw [show ('\x7d' : Char).toNat = 125 from rfl]; omega)
      · exact isDig_ne c ',' hd (by left; rw [show (',' : Char).toNat = 44 from rfl]; omega)
  | str s => exact ⟨'"', _, dumpVal_str s d, by decide, by decide, by decide, by decide⟩
  | arr elts =>
    cases elts with
    | nil => exact ⟨'[', _, dumpVal_arr_nil d, by decide, by decide, by decide, by decide⟩
    | cons x xs => exact ⟨'[', _, dumpVal_arr_cons x xs d, by decide, by decide, by decide, by decide⟩
  | obj kvs =>
    cases kvs with
    | nil => exact ⟨'\x7b', _, dumpVal_obj_nil d, by decide, by decide, by decide, by decide⟩
    | cons kv kvs =>
      exact ⟨'\x7b', _, dumpVal_obj_cons kv kvs d, by decide, by decide, by decide, by decide⟩

theorem parseVal_null_step (f : Nat) (cs r : List Char)
    (h : skipWs cs = 'n' :: 'u' :: 'l' :: 'l' :: r) :
    parseVal (f + 1) cs = some (.null, r) := by
  rw [parseVal.eq_def]
  dsimp only
  rw [h]
  rfl

theorem parseVal_true_step (f : Nat) (cs r : List Char)
    (h : skipWs cs = 't' :: 'r' :: 'u' :: 'e' :: r) :
    parseVal (f + 1) cs = some (.bool true, r) := by
  rw [parseVal.eq_def]
  dsimp only
  rw [h]
  rfl

theorem parseVal_false_step (f : Nat) (cs r : List Char)
    (h : skipWs cs = 'f' :: 'a' :: 'l' :: 's' :: 'e' :: r) :
    parseVal (f + 1) cs = some (.bool false, r) := by
  rw [parseVal.eq_def]
  dsimp only
  rw [h]
  rfl

theorem parseVal_str_step (f : Nat) (cs r : List Char) (h : skipWs cs = '"' :: r) :
    parseVal (f + 1) cs = (parseStrBody r).map (fun p => (.str ⟨p.1⟩, p.2)) := by
  rw [parseVal.eq_def]
  dsimp only
  rw [h]
  rfl

theorem parseVal_arr_nil_step (f : Nat) (cs r r2 : List Char)
    (h1 : skipWs cs = '[' :: r) (h2 : skipWs r = ']' :: r2) :
    parseVal (f + 1) cs = some (.arr [], r2) := by
  rw [parseVal.eq_def]
  dsimp only
  rw [h1]
  dsimp only
  rw [h2]
  rfl

theorem parseVal_arr_cons_step (f : Nat) (cs r : List Char) (c2 : Char) (r2 : List Char)
    (h1 : skipWs cs = '[' :: r) (h2 : skipWs r = c2 :: r2) (h3 : c2 ≠ ']') :
    parseVal (f + 1) cs = (do
      let (v, r3) ← parseVal f (c2 :: r2)
      let (vs, r4) ← parseArrRest f r3
      pure (.arr (v :: vs), r4)) := by
  rw [parseVal.eq_def]
  dsimp only
  rw [h1]
  dsimp only
  rw [h2]
  dsimp only
  rw [if_neg h3]
  rfl

theorem parseVal_obj_nil_step (f : Nat) (cs r r2 : List Char)
    (h1 : skipWs cs = '\x7b' :: r) (h2 : skipWs r = '\x7d' :: r2) :
    parseVal (f + 1) cs = some (.obj [], r2) := by
  rw [parseVal.eq_def]
  dsimp only
  rw [h1]
  dsimp only
  rw [h2]
  rfl

theorem parseVal_obj_cons_step (f : Nat) (cs r : List Char) (c2 : Char) (r2 : List Char)
    (h1 : skipWs cs = '\x7b' :: r) (h2 : skipWs r = c2 :: r2) (h3 : c2 ≠ '\x7d') :
    parseVal (f + 1) cs = (do
      let (kv, r3) ← parseMember f (c2 :: r2)
      let (kvs, r4) ← parseObjRest f r3
      pure (.obj (kv :: kvs), r4)) := by
  rw [parseVal.eq_def]
  dsimp only
  rw [h1]
  dsimp only
  rw [h2]
  dsimp only
  rw [if_neg h3]
  rfl

theorem parseVal_num_step (f : Nat) (cs : List Char) (c : Char) (r : List Char)
    (h : skipWs cs = c :: r) (hn : c ≠ 'n') (ht : c ≠ 't') (hf : c ≠ 'f') (hq : c ≠ '"')
    (ha : c ≠ '[') (ho : c ≠ '\x7b') :
    parseVal (f + 1) cs = (parseJNum (c :: r)).map (fun p => (.int p.1, p.2)) := by
  rw [parseVal.eq_def]
  dsimp only
  rw [h]
  dsimp only
  rw [if_neg hn, if_neg ht, if_neg hf, if_neg hq, if_neg ha, if_neg ho]

theorem parseArrRest_close_step (f : Nat) (cs r : List Char) (h : skipWs cs = ']' :: r) :
    parseArrRest (f + 1) cs = some ([], r) := by
  rw [parseArrRest.eq_def]
  dsimp only
  rw [h]
  rfl

theorem parseArrRest_comma_step (f : Nat) (cs r : List Char) (h : skipWs cs = ',' :: r) :
    parseArrRest (f + 1) cs = (do
      let (v, r2) ← parseVal f r
      let (vs, r3) ← parseArrRest f r2
      pure (v :: vs, r3)) := by
  rw [parseArrRest.eq_def]
  dsimp only
  rw [h]
  rfl

theorem parseObjRest_close_step (f : Nat) (cs r : List Char) (h : skipWs cs = '\x7d' :: r) :
    parseObjRest (f + 1) cs = some ([], r) := by
  rw [parseObjRest.eq_def]
  dsimp only
  rw [h]
  rfl

theorem parseObjRest_comma_step (f : Nat) (cs r : List Char) (h : skipWs cs = ',' :: r) :
    parseObjRest (f + 1) cs = (do
      let (kv, r2) ← parseMember f r
      let (kvs, r3) ← parseObjRest f r2
      pure (kv :: kvs, r3)) := by
  rw [parseObjRest.eq_def]
  dsimp only
  rw [h]
  rfl

theorem parseMember_step (f : Nat) (cs r : List Char) (k r2 r3 : List Char)
    (h1 : skipWs cs = '"' :: r) (hk : parseStrBody r = some (k, r2))
    (h2 : skipWs r2 = ':' :: r3) :
    parseMember (f + 1) cs = (do
      let (v, r4) ← parseVal f r3
      pure ((⟨k⟩, v), r4)) := by
  rw [parseMember.eq_def]
  dsimp only
  rw [h1]
  dsimp only
  rw [hk, if_pos rfl, mbind_some]
  dsimp only
  rw [h2]
  rfl

theorem skipWs_idem (cs : List Char) : skipWs (skipWs cs) = skipWs cs := by
  induction cs with
  | nil => rfl
  | cons c cs ih =>
    by_cases h : isJWs c = true
    · rw [skipWs_ws c cs h]
      exact ih
    · rw [skipWs_not_ws c cs (by simpa using h), skipWs_not_ws c cs (by simpa using h)]

theorem parseVal_skipWs (f : Nat) (cs : List Char) :
    parseVal f cs = parseVal f (skipWs cs) := by
  cases f with
  | zero => rfl
  | succ f =>
    conv_lhs => rw [parseVal.eq_def]
    conv_rhs => rw [parseVal.eq_def]
    dsimp only
    rw [skipWs_idem]

theorem parseMember_skipWs (f : Nat) (cs : List Char) :
    parseMember f cs = parseMember f (skipWs cs) := by
  cases f with
  | zero => rfl
  | succ f =>
    conv_lhs => rw [parseMember.eq_def]
    conv_rhs => rw [parseMember.eq_def]
    dsimp only
    rw [skipWs_idem]

theorem fuelNeed_null : fuelNeed .null = 1 := rfl

theorem fuelNeed_bool (b : Bool) : fuelNeed (.bool b) = 1 := rfl

theorem fuelNeed_int (n : Int) : fuelNeed (.int n) = 1 := rfl

theorem fuelNeed_str (s : String) : fuelNeed (.str s) = 1 := rfl

theorem fuelNeed_arr_nil : fuelNeed (.arr []) = 1 := rfl

theorem fuelNeed_arr_cons (x : Json) (xs : List Json) :
    fuelNeed (.arr (x :: xs)) = 1 + max (fuelNeed x) (fuelRestA xs) := rfl

theorem fuelNeed_obj_nil : fuelNeed (.obj []) = 1 := rfl

theorem fuelNeed_obj_cons (kv : String × Json) (kvs : List (String × Json)) :
    fuelNeed (.obj (kv :: kvs)) = 1 + max (1 + fuelNeed kv.2) (fuelRestO kvs) := by
  obtain ⟨k, v⟩ := kv
  rfl

theorem fuelRestA_nil : fuelRestA [] = 1 := rfl

theorem fuelRestA_cons (x : Json) (xs : List Json) :
    fuelRestA (x :: xs) = 1 + max (fuelNeed x) (fuelRestA xs) := rfl

theorem fuelRestO_nil : fuelRestO [] = 1 := rfl

theorem fuelRestO_cons (kv : String × Json) (kvs : List (String × Json)) :
    fuelRestO (kv :: kvs) = 1 + max (1 + fuelNeed kv.2) (fuelRestO kvs) := by
  obtain ⟨k, v⟩ := kv
  rfl

theorem notDigStart_cons (c : Char) (t : List Char) (h : isDig c = false) :
    notDigStart (c :: t) := h

theorem notDigStart_dumpArr (xs : List Json) (d : Nat) (cs : List Char) :
    notDigStart (dumpArr xs d ++ ('\n' :: cs)) := by
  cases xs with
  | nil => rw [dumpArr_nil, List.nil_append]; exact notDigStart_cons _ _ (by decide)
  | cons y ys => rw [dumpArr_cons, List.cons_append]; exact notDigStart_cons _ _ (by decide)

theorem notDigStart_dumpObj (kvs : List (String × Json)) (d : Nat) (cs : List Char) :
    notDigStart (dumpObj kvs d ++ ('\n' :: cs)) := by
  cases kvs with
  | nil => rw [dumpObj_nil, List.nil_append]; exact notDigStart_cons _ _ (by decide)
  | cons kv kvs => rw [dumpObj_cons, List.cons_append]; exact notDigStart_cons _ _ (by decide)

theorem Json.myInd (motive : Json → Prop)
    (hnull : motive .null) (hbool : ∀ b, motive (.bool b))
    (hint : ∀ n, motive (.int n)) (hstr : ∀ s, motive (.str s))
    (harr : ∀ xs, (∀ x ∈ xs, motive x) → motive (.arr xs))
    (hobj : ∀ kvs, (∀ kv ∈ kvs, motive kv.2) → motive (.obj kvs)) :
    ∀ j, motive j
  | .null => hnull
  | .bool b => hbool b
  | .int n => hint n
  | .str s => hstr s
  | .arr xs =>
    harr xs (fun x hx => Json.myInd motive hnull hbool hint hstr harr hobj x)
  | .obj kvs =>
    hobj kvs (fun kv hkv => Json.myInd motive hnull hbool hint hstr harr hobj kv.2)
termination_by j => sizeOf j
decreasing_by
  · have h1 := List.sizeOf_lt_of_mem hx
    simp only [Json.arr.sizeOf_spec]
    omega
  · have h1 := List.sizeOf_lt_of_mem hkv
    obtain ⟨a, b⟩ := kv
    simp only [Json.obj.sizeOf_spec, Prod.mk.sizeOf_spec] at *
    omega

theorem parseArrRest_dumpArr (xs : List Json) (hP : ∀ x ∈ xs, ParsesBack x) :
    ∀ d d2 rest f, fuelRestA xs ≤ f → notDigStart rest →
      parseArrRest f (dumpArr xs d ++ ('\n' :: (sp d2 ++ (']' :: rest)))) = some (xs, rest) := by
  induction xs with
  | nil =>
    intro d d2 rest f hf hnd
    rw [fuelRestA_nil] at hf
    obtain ⟨f, rfl⟩ : ∃ g, f = g + 1 := ⟨f - 1, by omega⟩
    rw [dumpArr_nil, List.nil_append]
    exact parseArrRest_close_step f _ rest
      (by rw [skipWs_nl_sp, skipWs_not_ws _ _ (by decide)])
  | cons y ys ih =>
    intro d d2 rest f hf hnd
    rw [fuelRestA_cons] at hf
    obtain ⟨f, rfl⟩ : ∃ g, f = g + 1 := ⟨f - 1, by omega⟩
    rw [dumpArr_cons, List.cons_append, List.cons_append]
    rw [parseArrRest_comma_step f _ _ (skipWs_not_ws ',' _ (by decide))]
    rw [parseVal_skipWs, List.append_assoc, skipWs_nl_sp, List.append_assoc]
    obtain ⟨c, t, hy, hnws, h1, h2, h3⟩ := dumpVal_head y d
    rw [hy, List.cons_append, skipWs_not_ws _ _ hnws, ← List.cons_append, ← hy]
    rw [hP y (List.mem_cons_self y ys) d _ f (by omega) (notDigStart_dumpArr ys d _)]
    rw [mbind_some]
    dsimp only
    rw [ih (fun x hx => hP x (List.mem_cons_of_mem y hx)) d d2 rest f (by omega) hnd]
    rw [mbind_some]
    rfl

theorem parseMember_dump (k : String) (v : Json) (hPv : ParsesBack v) (d : Nat)
    (rest : List Char) (f : Nat) (hf : 1 + fuelNeed v ≤ f) (hnd : notDigStart rest) :
    parseMember f ('"' :: (encStr k.data ++ ('"' :: ':' :: ' ' :: (dumpVal v d ++ rest)))) =
      some ((k, v), rest) := by
  obtain ⟨f, rfl⟩ : ∃ g, f = g + 1 := ⟨f - 1, by omega⟩
  rw [parseMember_step f _ _ k.data (':' :: ' ' :: (dumpVal v d ++ rest))
    (' ' :: (dumpVal v d ++ rest))
    (skipWs_not_ws _ _ (by decide))
    (parseStrBody_encStr k.data (':' :: ' ' :: (dumpVal v d ++ rest)))
    (skipWs_not_ws _ _ (by decide))]
  rw [parseVal_skipWs, skipWs_ws ' ' _ (by decide)]
  obtain ⟨c, t, hv, hnws, h1, h2, h3⟩ := dumpVal_head v d
  rw [hv, List.cons_append, skipWs_not_ws _ _ hnws, ← List.cons_append, ← hv]
  rw [hPv d rest f (by omega) hnd, mbind_some]
  rfl

theorem parseObjRest_dumpObj (kvs : List (String × Json))
    (hP : ∀ kv ∈ kvs, ParsesBack kv.2) :
    ∀ d d2 rest f, fuelRestO kvs ≤ f → notDigStart rest →
      parseObjRest f (dumpObj kvs d ++ ('\n' :: (sp d2 ++ ('\x7d' :: rest)))) =
        some (kvs, rest) := by
  induction kvs with
  | nil =>
    intro d d2 rest f hf hnd
    rw [fuelRestO_nil] at hf
    obtain ⟨f, rfl⟩ : ∃ g, f = g + 1 := ⟨f - 1, by omega⟩
    rw [dumpObj_nil, List.nil_append]
    exact parseObjRest_close_step f _ rest
      (by rw [skipWs_nl_sp, skipWs_not_ws _ _ (by decide)])
  | cons kv kvs ih =>
    intro d d2 rest f hf hnd
    obtain ⟨k, v⟩ := kv
    rw [fuelRestO_cons] at hf
    dsimp only at hf
    obtain ⟨f, rfl⟩ : ∃ g, f = g + 1 := ⟨f - 1, by omega⟩
    rw [dumpObj_cons]
    dsimp only
    rw [List.cons_append, List.cons_append]
    rw [parseObjRest_comma_step f _ _ (skipWs_not_ws ',' _ (by decide))]
    rw [parseMember_skipWs, List.append_assoc, skipWs_nl_sp, List.cons_append,
      skipWs_not_ws '"' _ (by decide)]
    rw [show (encStr k.data ++ ('"' :: ':' :: ' ' :: (dumpVal v d ++ dumpObj kvs d))) ++
        ('\n' :: (sp d2 ++ ('\x7d' :: rest))) =
      encStr k.data ++ ('"' :: ':' :: ' ' :: (dumpVal v d ++
        (dumpObj kvs d ++ ('\n' :: (sp d2 ++ ('\x7d' :: rest)))))) from by simp]
    rw [parseMember_dump k v (hP (k, v) (List.mem_cons_self _ _)) d _ f (by omega)
      (notDigStart_dumpObj kvs d _)]
    rw [mbind_some]
    dsimp only
    rw [ih (fun x hx => hP x (List.mem_cons_of_mem _ hx)) d d2 rest f (by omega) hnd]
    rw [mbind_some]
    rfl

theorem parsesBack (j : Json) : ParsesBack j := by
  induction j using Json.myInd with
  | hnull =>
    intro d rest f hf hnd
    rw [fuelNeed_null] at hf
    obtain ⟨f, rfl⟩ : ∃ g, f = g + 1 := ⟨f - 1, by omega⟩
    rw [dumpVal_null]
    exact parseVal_null_step f _ rest (skipWs_not_ws _ _ (by decide))
  | hbool b =>
    intro d rest f hf hnd
    rw [fuelNeed_bool] at hf
    obtain ⟨f, rfl⟩ : ∃ g, f = g + 1 := ⟨f - 1, by omega⟩
    cases b with
    | true =>
      rw [dumpVal_true]
      exact parseVal_true_step f _ rest (skipWs_not_ws _ _ (by decide))
    | false =>
      rw [dumpVal_false]
      exact parseVal_false_step f _ rest (skipWs_not_ws _ _ (by decide))
  | hint n =>
    intro d rest f hf hnd
    rw [fuelNeed_int] at hf
    obtain ⟨f, rfl⟩ : ∃ g, f = g + 1 := ⟨f - 1, by omega⟩
    rw [dumpVal_int]
    rw [intRepr_data]
    by_cases h : n < 0
    · rw [if_pos h, List.cons_append]
      rw [parseVal_num_step f _ '-' _ (skipWs_not_ws _ _ (by decide))
        (by decide) (by decide) (by decide) (by decide) (by decide) (by decide)]
      rw [← List.cons_append, show '-' :: natDigits n.natAbs =
        (intRepr n).data from by rw [intRepr_data, if_pos h]]
      rw [parseJNum_intRepr n rest hnd]
      rfl
    · obtain ⟨c, t, heq, hdg, _⟩ := natDigits_head n.natAbs
      rw [if_neg h, heq, List.cons_append]
      rw [parseVal_num_step f _ c _ (skipWs_not_ws _ _ (isDig_not_ws c hdg))
        (isDig_ne c 'n' hdg (by right; rw [show ('n' : Char).toNat = 110 from rfl]; omega))
        (isDig_ne c 't' hdg (by right; rw [show ('t' : Char).toNat = 116 from rfl]; omega))
        (isDig_ne c 'f' hdg (by right; rw [show ('f' : Char).toNat = 102 from rfl]; omega))
        (isDig_ne c '"' hdg (by left; rw [show ('"' : Char).toNat = 34 from rfl]; omega))
        (isDig_ne c '[' hdg (by right; rw [show ('[' : Char).toNat = 91 from rfl]; omega))
        (isDig_ne c '\x7b' hdg (by right; rw [show ('\x7b' : Char).toNat = 123 from rfl]; omega))]
      rw [← List.cons_append, ← heq, show natDigits n.natAbs =
        (intRepr n).data from by rw [intRepr_data, if_neg h]]
      rw [parseJNum_intRepr n rest hnd]
      rfl
  | hstr s =>
    intro d rest f hf hnd
    rw [fuelNeed_str] at hf
    obtain ⟨f, rfl⟩ : ∃ g, f = g + 1 := ⟨f - 1, by omega⟩
    rw [dumpVal_str, List.cons_append, List.append_assoc]
    rw [parseVal_str_step f _ _ (skipWs_not_ws _ _ (by decide))]
    rw [show (['"'] : List Char) ++ rest = '"' :: rest from rfl]
    rw [parseStrBody_encStr s.data rest]
    rfl
  | harr xs hPs =>
    intro d rest f hf hnd
    cases xs with
    | nil =>
      rw [fuelNeed_arr_nil] at hf
      obtain ⟨f, rfl⟩ : ∃ g, f = g + 1 := ⟨f - 1, by omega⟩
      rw [dumpVal_arr_nil]
      exact parseVal_arr_nil_step f _ _ rest (skipWs_not_ws _ _ (by decide))
        (skipWs_not_ws _ _ (by decide))
    | cons x xs =>
      rw [fuelNeed_arr_cons] at hf
      obtain ⟨f, rfl⟩ : ∃ g, f = g + 1 := ⟨f - 1, by omega⟩
      rw [dumpVal_arr_cons, List.cons_append, List.cons_append, List.append_assoc,
        List.append_assoc]
      obtain ⟨c, t, hx, hnws, hnb, _, _⟩ := dumpVal_head x (d + 1)
      rw [show dumpArr xs (d + 1) ++ ('\n' :: (sp d ++ [']'])) ++ rest =
        dumpArr xs (d + 1) ++ ('\n' :: (sp d ++ (']' :: rest))) from by simp]
      rw [parseVal_arr_cons_step f _ _ c (t ++ (dumpArr xs (d + 1) ++ ('\n' :: (sp d ++ (']' :: rest)))))
        (skipWs_not_ws '[' _ (by decide))
        (by rw [skipWs_nl_sp, hx, List.cons_append, skipWs_not_ws _ _ hnws]) hnb]
      rw [← List.cons_append, ← hx]
      rw [hPs x (List.mem_cons_self _ _) (d + 1) _ f (by omega)
        (notDigStart_dumpArr xs (d + 1) _)]
      rw [mbind_some]
      dsimp only
      rw [parseArrRest_dumpArr xs (fun z hz => hPs z (List.mem_cons_of_mem _ hz))
        (d + 1) d rest f (by omega) hnd]
      rw [mbind_some]
      rfl
  | hobj kvs hPs =>
    intro d rest f hf hnd
    cases kvs with
    | nil =>
      rw [fuelNeed_obj_nil] at hf
      obtain ⟨f, rfl⟩ : ∃ g, f = g + 1 := ⟨f - 1, by omega⟩
      rw [dumpVal_obj_nil]
      exact parseVal_obj_nil_step f _ _ rest (skipWs_not_ws _ _ (by decide))
        (skipWs_not_ws _ _ (by decide))
    | cons kv kvs =>
      obtain ⟨k, v⟩ := kv
      rw [fuelNeed_obj_cons] at hf
      dsimp only at hf
      obtain ⟨f, rfl⟩ : ∃ g, f = g + 1 := ⟨f - 1, by omega⟩
      rw [dumpVal_obj_cons]
      dsimp only
      rw [List.cons_append, List.cons_append, List.append_assoc]
      rw [parseVal_obj_cons_step f _ _ '"'
        ((encStr k.data ++ ('"' :: ':' :: ' ' :: (dumpVal v (d + 1) ++ (dumpObj kvs (d + 1) ++
          ('\n' :: (sp d ++ ['\x7d'])))))) ++ rest)
        (skipWs_not_ws '\x7b' _ (by decide))
        (by rw [skipWs_nl_sp, List.cons_append, skipWs_not_ws _ _ (by decide)])
        (by decide)]
      rw [show ('"' :: ((encStr k.data ++ ('"' :: ':' :: ' ' :: (dumpVal v (d + 1) ++
          (dumpObj kvs (d + 1) ++ ('\n' :: (sp d ++ ['\x7d'])))))) ++ rest)) =
        '"' :: (encStr k.data ++ ('"' :: ':' :: ' ' :: (dumpVal v (d + 1) ++
          (dumpObj kvs (d + 1) ++ ('\n' :: (sp d ++ ('\x7d' :: rest))))))) from by simp]
      rw [parseMember_dump k v (hPs (k, v) (List.mem_cons_self _ _)) (d + 1) _ f (by omega)
        (notDigStart_dumpObj kvs (d + 1) _)]
      rw [mbind_some]
      dsimp only
      rw [parseObjRest_dumpObj kvs (fun z hz => hPs z (List.mem_cons_of_mem _ hz))
        (d + 1) d rest f (by omega) hnd]
      rw [mbind_some]
      rfl

theorem dumpVal_length_pos (j : Json) (d : Nat) : 1 ≤ (dumpVal j d).length := by
  obtain ⟨c, t, h, _⟩ := dumpVal_head j d
  rw [h]
  simp

theorem fuelRestA_le (xs : List Json)
    (hA : ∀ x ∈ xs, ∀ d, fuelNeed x ≤ (dumpVal x d).length + 1) :
    ∀ d, fuelRestA xs ≤ (dumpArr xs d).length + 1 := by
  induction xs with
  | nil => intro d; rw [fuelRestA_nil, dumpArr_nil]; omega
  | cons y ys ih =>
    intro d
    rw [fuelRestA_cons, dumpArr_cons]
    simp only [List.length_cons, List.length_append]
    have h1 := hA y (List.mem_cons_self _ _) d
    have h2 := ih (fun x hx => hA x (List.mem_cons_of_mem _ hx)) d
    omega

theorem fuelRestO_le (kvs : List (String × Json))
    (hA : ∀ kv ∈ kvs, ∀ d, fuelNeed kv.2 ≤ (dumpVal kv.2 d).length + 1) :
    ∀ d, fuelRestO kvs ≤ (dumpObj kvs d).length + 1 := by
  induction kvs with
  | nil => intro d; rw [fuelRestO_nil, dumpObj_nil]; omega
  | cons kv kvs ih =>
    intro d
    rw [fuelRestO_cons, dumpObj_cons]
    simp only [List.length_cons, List.length_append]
    have h1 := hA kv (List.mem_cons_self _ _) d
    have h2 := ih (fun x hx => hA x (List.mem_cons_of_mem _ hx)) d
    omega

theorem fuelNeed_le (j : Json) : ∀ d, fuelNeed j ≤ (dumpVal j d).length + 1 := by
  induction j using Json.myInd with
  | hnull => intro d; rw [fuelNeed_null]; omega
  | hbool b => intro d; rw [fuelNeed_bool]; omega
  | hint n => intro d; rw [fuelNeed_int]; omega
  | hstr s => intro d; rw [fuelNeed_str]; omega
  | harr xs hPs =>
    intro d
    cases xs with
    | nil => rw [fuelNeed_arr_nil]; omega
    | cons x xs =>
      rw [fuelNeed_arr_cons, dumpVal_arr_cons]
      simp only [List.length_cons, List.length_append]
      have h1 := hPs x (List.mem_cons_self _ _) (d + 1)
      have h2 := fuelRestA_le xs (fun z hz => hPs z (List.mem_cons_of_mem _ hz)) (d + 1)
      omega
  | hobj kvs hPs =>
    intro d
    cases kvs with
    | nil => rw [fuelNeed_obj_nil]; omega
    | cons kv kvs =>
      rw [fuelNeed_obj_cons, dumpVal_obj_cons]
      simp only [List.length_cons, List.length_append]
      have h1 := hPs kv (List.mem_cons_self _ _) (d + 1)
      have h2 := fuelRestO_le kvs (fun z hz => hPs z (List.mem_cons_of_mem _ hz)) (d + 1)
      omega

/-- The serialiser/parser round trip: `json.loads(json.dumps(j, indent=2))`
recovers exactly the value written, for every JSON value in the modelled
fragment. -/
theorem loads_dumps (j : Json) : loads (dumps j) = some j := by
  unfold loads dumps
  rw [show (⟨dumpVal j 0⟩ : String).data = dumpVal j 0 from rfl,
    show (⟨dumpVal j 0⟩ : String).length = (dumpVal j 0).length from rfl]
  have h := parsesBack j 0 [] ((dumpVal j 0).length + 1) (fuelNeed_le j 0) trivial
  rw [List.append_nil] at h
  rw [h]
  rfl

theorem load_after_save (j : Json) (fs : Store) :
    load_data (save_data j fs) = .ok (j, ensure_storage (save_data j fs)) := by
  unfold load_data
  dsimp only
  rw [show (ensure_storage (save_data j fs)).dataJson.getD "" = dumps j from rfl]
  rw [loads_dumps]
  rfl

/-- C2: for every valid Document — an object holding an `active` list of
items and a `next_popup_not_before` field — `save_data` followed by
`load_data` returns a Document equal to the one saved (src/app.py lines
102-103 and 86-99). -/
theorem c2_save_then_load_roundtrip (d : Doc) (fs : Store) :
    load_data (save_data (docToJson d) fs) =
      .ok (docToJson d, ensure_storage (save_data (docToJson d) fs)) :=
  load_after_save (docToJson d) fs

/-- C3 (actual code behaviour): on a `data.json` whose contents do not parse
as JSON, `load_data` does not back up and reset — its `except` handler first
builds the backup file name, whose f-string evaluates
`datetime.datetime.now(datetime.UTC)` (line 92) where `datetime` is the
class imported on line 7, so the lookup raises `AttributeError` and
`load_data` propagates it instead of returning the default document. -/
theorem c3_corrupt_load_raises (fs : Store) (s : String) (hs : fs.dataJson = some s)
    (hbad : loads s = none) :
    load_data fs = .error dtAttrError := by
  unfold load_data
  dsimp only
  rw [show (ensure_storage fs).dataJson.getD "" = fs.dataJson.getD (dumps seedDoc) from
    rfl, hs]
  rw [show (some s).getD (dumps seedDoc) = s from rfl, hbad]
  rfl

theorem c3_witness :
    (⟨some "nonsense", none⟩ : Store).dataJson = some "nonsense" ∧
    loads "nonsense" = none ∧
    load_data ⟨some "nonsense", none⟩ = .error dtAttrError :=
  ⟨rfl, rfl, c3_corrupt_load_raises ⟨some "nonsense", none⟩ "nonsense" rfl rfl⟩

/-- C9: from a state where neither file exists, `ensure_storage` creates the
markdown file with the fixed header and seed line and the JSON document with
exactly the three seed items and a null `next_popup_not_before`; a subsequent
`load_data` returns exactly that document; pre-existing files are left
untouched (src/app.py lines 64-83). -/
theorem c9_ensure_storage_seeds :
    ensure_storage ⟨none, none⟩ = ⟨some (dumps seedDoc), some defaultMdText⟩ ∧
    load_data ⟨none, none⟩ = .ok (seedDoc, ⟨some (dumps seedDoc), some defaultMdText⟩) ∧
    dictGet seedDoc "active" = .arr
      [.obj [("title", .str "Preacher Man"), ("last_page", .int 0), ("kind", .str "book")],
       .obj [("title", .str "Farnam Street"), ("last_page", .int 0), ("kind", .str "blog")],
       .obj [("title", .str "Example Article: Notes on Learning"), ("last_page", .int 0),
             ("kind", .str "article")]] ∧
    dictGet seedDoc "next_popup_not_before" = .null ∧
    (∀ fs s, fs.dataJson = some s → (ensure_storage fs).dataJson = some s) ∧
    (∀ fs m, fs.completedMd = some m → (ensure_storage fs).completedMd = some m) := by
  refine ⟨rfl, ?_, rfl, rfl, ?_, ?_⟩
  · unfold load_data
    dsimp only
    rw [show (ensure_storage ⟨none, none⟩).dataJson.getD "" = dumps seedDoc from rfl]
    rw [loads_dumps]
    rfl
  · intro fs s h
    unfold ensure_storage
    rw [h]
    rfl
  · intro fs m h
    unfold ensure_storage
    rw [h]
    rfl

theorem c9_witness :
    (⟨some "keep", some "md"⟩ : Store).dataJson = some "keep" ∧
    (ensure_storage ⟨some "keep", some "md"⟩).dataJson = some "keep" ∧
    (ensure_storage ⟨some "keep", some "md"⟩).completedMd = some "md" :=
  ⟨rfl, c9_ensure_storage_seeds.2.2.2.2.1 ⟨some "keep", some "md"⟩ "keep" rfl,
    c9_ensure_storage_seeds.2.2.2.2.2 ⟨some "keep", some "md"⟩ "md" rfl⟩

theorem dropWhile_nop (p : Char → Bool) (cs : List Char)
    (h : ∀ c ∈ cs, p c = false) : cs.dropWhile p = cs := by
  cases cs with
  | nil => rfl
  | cons c t =>
    rw [List.dropWhile_cons, h c (List.mem_cons_self c t)]
    simp

theorem stripWsL_nop (cs : List Char) (h : ∀ c ∈ cs, isPyWs c = false) :
    stripWsL cs = cs := by
  unfold stripWsL
  rw [dropWhile_nop _ _ h,
    dropWhile_nop _ _ (fun c hc => h c (List.mem_reverse.mp hc)),
    List.reverse_reverse]

theorem isDig_not_pyws (c : Char) (h : isDig c = true) : isPyWs c = false := by
  simp only [isPyWs, Bool.or_eq_false_iff, decide_eq_false_iff_not]
  refine ⟨⟨⟨⟨⟨?_, ?_⟩, ?_⟩, ?_⟩, ?_⟩, ?_⟩
  · exact isDig_ne c ' ' h (by left; rw [show (' ' : Char).toNat = 32 from rfl]; omega)
  · exact isDig_ne c '\t' h (by left; rw [show ('\t' : Char).toNat = 9 from rfl]; omega)
  · exact isDig_ne c '\n' h (by left; rw [show ('\n' : Char).toNat = 10 from rfl]; omega)
  · exact isDig_ne c '\r' h (by left; rw [show ('\r' : Char).toNat = 13 from rfl]; omega)
  · exact isDig_ne c '\x0b' h (by left; rw [show ('\x0b' : Char).toNat = 11 from rfl]; omega)
  · exact isDig_ne c '\x0c' h (by left; rw [show ('\x0c' : Char).toNat = 12 from rfl]; omega)

theorem pyInt_digits (c : Char) (cs : List Char) (hall : ∀ x ∈ c :: cs, isDig x = true) :
    pyInt ⟨c :: cs⟩ = some ((digitsVal 0 (c :: cs) : Nat) : Int) := by
  have hc := hall c (List.mem_cons_self c cs)
  have hne1 : c ≠ '+' :=
    isDig_ne c '+' hc (by left; rw [show ('+' : Char).toNat = 43 from rfl]; omega)
  have hne2 : c ≠ '-' :=
    isDig_ne c '-' hc (by left; rw [show ('-' : Char).toNat = 45 from rfl]; omega)
  unfold pyInt
  dsimp only
  rw [stripWsL_nop _ (fun x hx => isDig_not_pyws x (hall x hx))]
  split
  next ds heq =>
    injection heq with h1 _
    exact absurd h1 hne1
  next ds heq =>
    injection heq with h1 _
    exact absurd h1 hne2
  next =>
    rw [if_pos ⟨List.cons_ne_nil c cs, by rw [List.all_eq_true]; exact hall⟩]

theorem digitsVal_natDigits0 (n : Nat) : digitsVal 0 (natDigits n) = n := by
  rw [digitsVal_natDigits n 0]
  omega

theorem intRepr_not_ws (p : Int) : ∀ c ∈ (intRepr p).data, isPyWs c = false := by
  rw [intRepr_data]
  split
  · intro c hc
    rcases List.mem_cons.mp hc with h | h
    · subst h; decide
    · exact isDig_not_pyws c (natDigits_all_dig _ c h)
  · intro c hc
    exact isDig_not_pyws c (natDigits_all_dig _ c hc)

theorem pyStrip_intRepr (p : Int) : pyStrip (intRepr p) = intRepr p := by
  unfold pyStrip
  rw [stripWsL_nop _ (intRepr_not_ws p)]

theorem intRepr_ne_empty (p : Int) : intRepr p ≠ "" := by
  intro h
  have hd : (intRepr p).data = [] := by rw [h]
  rw [intRepr_data] at hd
  rcases natDigits_head p.natAbs with ⟨c, t, hct, _, _⟩
  revert hd
  split <;> rw [hct] <;> exact fun h => List.noConfusion h

theorem pyInt_intRepr (p : Int) : pyInt (intRepr p) = some p := by
  by_cases hp : p < 0
  · unfold pyInt
    dsimp only
    rw [show (intRepr p).data = '-' :: natDigits p.natAbs from by rw [intRepr_data, if_pos hp]]
    rw [stripWsL_nop _ (fun c hc => by
      rcases List.mem_cons.mp hc with h | h
      · subst h; decide
      · exact isDig_not_pyws c (natDigits_all_dig _ c h))]
    split
    next ds heq =>
      injection heq with h1 _
      exact absurd h1 (by decide)
    next ds heq =>
      injection heq with _ h2
      subst h2
      rw [if_pos ⟨natDigits_ne_nil _, by rw [List.all_eq_true]; exact natDigits_all_dig _⟩,
        Option.map_some', digitsVal_natDigits0]
      refine congrArg some ?_
      omega
    next h1 h2 =>
      exact absurd rfl (h2 (natDigits p.natAbs))
  · rw [show intRepr p = ⟨natDigits p.natAbs⟩ from by unfold intRepr; rw [if_neg hp]]
    rcases natDigits_head p.natAbs with ⟨c, t, hct, _, _⟩
    rw [hct]
    rw [pyInt_digits c t (by rw [← hct]; exact natDigits_all_dig _)]
    rw [← hct, digitsVal_natDigits0]
    refine congrArg some ?_
    omega

theorem initTryArm_none (j : Json) : initTryArm j = none := by
  unfold initTryArm
  cases j <;> dsimp only <;> try rfl
  split <;> rfl

theorem fireSnoozeCheck_none (j : Json) : fireSnoozeCheck j = none := by
  unfold fireSnoozeCheck
  cases j <;> dsimp only <;> try rfl
  next s =>
  by_cases h : s = ""
  · rw [if_pos h]
  · rw [if_neg h]
    split <;> rfl

theorem ebind_ok {e a b : Type} (x : a) (f : a → Except e b) :
    (Except.ok x >>= f : Except e b) = f x := rfl

theorem snooze_30m_raises (now : EpochSec) (st : AppState) (fs : Store) :
    snooze_30m now st fs = .error dtAttrError := rfl

/-- C1 (actual code behaviour): every non-reading exit and the log-flow
completion call `App.snooze_30m`, whose first statement evaluates
`datetime.datetime.now(datetime.UTC)` where `datetime` is the class imported
on line 7, so the lookup raises `AttributeError` before anything is persisted
or scheduled.  Closing the popup and cancelling the duration prompt therefore
change no document state and arm nothing; log submission persists the page
update (done before the snooze call) but arms no snooze and no timer. -/
theorem c1_exit_paths_never_snooze (now : EpochSec) (st : AppState) (fs : Store)
    (t : String) (p : Int) :
    snooze_30m now st fs = .error dtAttrError ∧
    popup_close now st fs = ({ st with popup_handle := false }, fs, some dtAttrError) ∧
    duration_prompt_cancel now st fs = (st, fs, some dtAttrError) ∧
    App.log_submit now st fs t p =
      ({ st with data := on_submit_update st.data t p },
        save_data (on_submit_update st.data t p) fs, some dtAttrError) := by
  refine ⟨rfl, ?_, ?_, ?_⟩
  · unfold popup_close
    dsimp only
    rw [snooze_30m_raises]
  · unfold duration_prompt_cancel
    rw [snooze_30m_raises]
  · unfold App.log_submit
    dsimp only
    rw [snooze_30m_raises]

/-- C6: marking the selected item completed removes exactly that item from
`active` (all other items unchanged, in order: the result is the prefix
before it plus the suffix after it), persists, and appends to the markdown
log exactly the one line built by `completedLine` from the item's current
fields and the current local date; the second conjunct checks the literal
line format on a sample item (src/app.py lines 233-243 and 106-109). -/
theorem c6_mark_completed_removes_and_logs (st : EditorState) (today : Date) (fs : Store)
    (i : Nat) (item : Item) (hsel : st.selected = some i)
    (hget : st.data.active.get? i = some item) :
    mark_completed st today fs =
      ({ st with
           data := { st.data with active := st.data.active.take i ++ st.data.active.drop (i + 1) },
           selected := none, title_var := "", page_var := "", kind_var := "book" },
       save_data
         (docToJson
           { st.data with active := st.data.active.take i ++ st.data.active.drop (i + 1) })
         { fs with completedMd := some (fs.completedMd.getD "" ++
             completedLine item.title item.last_page item.kind today) }) ∧
    completedLine "Preacher Man" 12 "book" ⟨2026, 10, 12⟩ =
      "- **Preacher Man** (book) — completed at page **12** on 2026-10-12\n" := by
  refine ⟨?_, by decide⟩
  unfold mark_completed
  rw [hsel]
  dsimp only
  rw [hget]
  dsimp only
  rw [List.eraseIdx_eq_take_drop_succ]
  rfl

theorem c6_witness :
    ((⟨⟨[⟨"A", 3, "book"⟩, ⟨"B", 5, "blog"⟩], none⟩, some 0, false, "", "", ""⟩ :
        EditorState)).selected = some 0 ∧
    (⟨⟨[⟨"A", 3, "book"⟩, ⟨"B", 5, "blog"⟩], none⟩, some 0, false, "", "", ""⟩ :
        EditorState).data.active.get? 0 = some ⟨"A", 3, "book"⟩ ∧
    (mark_completed
        ⟨⟨[⟨"A", 3, "book"⟩, ⟨"B", 5, "blog"⟩], none⟩, some 0, false, "", "", ""⟩
        ⟨2026, 10, 12⟩ ⟨none, none⟩ =
      (⟨⟨[⟨"B", 5, "blog"⟩], none⟩, none, false, "", "", "book"⟩,
       save_data (docToJson ⟨[⟨"B", 5, "blog"⟩], none⟩)
         ⟨none, some (completedLine "A" 3 "book" ⟨2026, 10, 12⟩)⟩) ∧
     completedLine "Preacher Man" 12 "book" ⟨2026, 10, 12⟩ =
      "- **Preacher Man** (book) — completed at page **12** on 2026-10-12\n") :=
  ⟨rfl, rfl,
    c6_mark_completed_removes_and_logs
      ⟨⟨[⟨"A", 3, "book"⟩, ⟨"B", 5, "blog"⟩], none⟩, some 0, false, "", "", ""⟩
      ⟨2026, 10, 12⟩ ⟨none, none⟩ 0 ⟨"A", 3, "book"⟩ rfl rfl⟩

theorem savePageStr_intRepr (st : EditorState) (p : Int) (hp : st.page_var = intRepr p) :
    savePageStr st = intRepr p := by
  unfold savePageStr
  rw [hp, pyStrip_intRepr, if_neg (intRepr_ne_empty p)]

/-- C7: both `last_page` entry points accept a value exactly when it parses
as an integer `p >= 0`.  With the field holding the decimal rendering of an
integer `p`: for `p < 0` the editor's Save and the log form's Submit reject
with the validation error and change nothing, while for `p >= 0` the editor
appends (new-item mode) or replaces in place (edit mode) an item carrying
exactly `p` and persists the document, and the log form hands `p` on
unchanged; a page string that does not parse as an integer is rejected by
the log form (src/app.py lines 191-221 and 347-361). -/
theorem c7_last_page_accepted_iff_nonneg (p : Int) (st : EditorState) (fs : Store)
    (t : String) (hp : st.page_var = intRepr p) (ht : pyStrip t ≠ "") :
    (p < 0 →
      save_selected st fs =
        (st, fs, .validationError "Last page must be a non-negative integer.") ∧
      LogWindow.submit t (intRepr p) =
        .errorKeepOpen "Last page must be a non-negative integer.") ∧
    (0 ≤ p →
      (st.new_item_mode = true →
        save_selected st fs =
          ({ st with
               data := { st.data with
                 active := st.data.active ++ [⟨saveTitle st, p, saveKind st⟩] },
               new_item_mode := false, title_var := "", page_var := "", kind_var := "book",
               selected := some st.data.active.length },
           save_data
             (docToJson { st.data with
               active := st.data.active ++ [⟨saveTitle st, p, saveKind st⟩] }) fs,
           .saved)) ∧
      (∀ i, st.new_item_mode = false → st.selected = some i →
        save_selected st fs =
          ({ st with
               data := { st.data with
                 active := st.data.active.set i ⟨saveTitle st, p, saveKind st⟩ },
               title_var := "", page_var := "", kind_var := "book", selected := some i },
           save_data
             (docToJson { st.data with
               active := st.data.active.set i ⟨saveTitle st, p, saveKind st⟩ }) fs,
           .saved)) ∧
      LogWindow.submit t (intRepr p) = .submitted (pyStrip t) p) ∧
    (∀ s, pyInt (pyStrip s) = none →
      LogWindow.submit t s = .errorKeepOpen "Last page must be a non-negative integer.") := by
  refine ⟨fun hneg => ⟨?_, ?_⟩, fun h0 => ⟨fun hnew => ?_, fun i hnew hsel => ?_, ?_⟩,
    fun s hs => ?_⟩
  · unfold save_selected
    dsimp only
    rw [savePageStr_intRepr st p hp, pyInt_intRepr]
    dsimp only
    rw [if_pos hneg]
  · unfold LogWindow.submit
    dsimp only
    rw [if_neg ht, pyStrip_intRepr, pyInt_intRepr]
    dsimp only
    rw [if_pos hneg]
  · unfold save_selected
    dsimp only
    rw [savePageStr_intRepr st p hp, pyInt_intRepr]
    dsimp only
    rw [if_neg (not_lt.mpr h0), hnew]
    rw [if_pos (show (true || st.selected.isNone) = true from Bool.true_or _)]
    rw [show (st.data.active ++ [(⟨saveTitle st, p, saveKind st⟩ : Item)]).length - 1
        = st.data.active.length from by rw [List.length_append]; rfl]
  · unfold save_selected
    dsimp only
    rw [savePageStr_intRepr st p hp, pyInt_intRepr]
    dsimp only
    rw [if_neg (not_lt.mpr h0), hnew, hsel]
    dsimp only
    rw [if_neg (by simp)]
  · unfold LogWindow.submit
    dsimp only
    rw [if_neg ht, pyStrip_intRepr, pyInt_intRepr]
    dsimp only
    rw [if_neg (not_lt.mpr h0)]
  · unfold LogWindow.submit
    dsimp only
    rw [if_neg ht, hs]

theorem c7_witness :
    ((⟨⟨[], none⟩, none, true, "My Book", "7", "book"⟩ : EditorState).page_var = intRepr 7) ∧
    pyStrip "My Book" ≠ "" ∧
    ((7 : Int) < 0 →
      save_selected ⟨⟨[], none⟩, none, true, "My Book", "7", "book"⟩ ⟨none, none⟩ =
        (⟨⟨[], none⟩, none, true, "My Book", "7", "book"⟩, ⟨none, none⟩,
          .validationError "Last page must be a non-negative integer.") ∧
      LogWindow.submit "My Book" (intRepr 7) =
        .errorKeepOpen "Last page must be a non-negative integer.") ∧
    ((0 : Int) ≤ 7 →
      ((⟨⟨[], none⟩, none, true, "My Book", "7", "book"⟩ : EditorState).new_item_mode = true →
        save_selected ⟨⟨[], none⟩, none, true, "My Book", "7", "book"⟩ ⟨none, none⟩ =
          (⟨⟨[⟨"My Book", 7, "book"⟩], none⟩, some 0, false, "", "", "book"⟩,
           save_data (docToJson ⟨[⟨"My Book", 7, "book"⟩], none⟩) ⟨none, none⟩, .saved)) ∧
      (∀ i, (⟨⟨[], none⟩, none, true, "My Book", "7", "book"⟩ : EditorState).new_item_mode = false →
        (⟨⟨[], none⟩, none, true, "My Book", "7", "book"⟩ : EditorState).selected = some i →
        save_selected ⟨⟨[], none⟩, none, true, "My Book", "7", "book"⟩ ⟨none, none⟩ =
          (⟨⟨[].set i ⟨"My Book", 7, "book"⟩, none⟩, some i, true, "", "", "book"⟩,
           save_data (docToJson ⟨[].set i ⟨"My Book", 7, "book"⟩, none⟩) ⟨none, none⟩, .saved)) ∧
      LogWindow.submit "My Book" (intRepr 7) = .submitted (pyStrip "My Book") 7) ∧
    (∀ s, pyInt (pyStrip s) = none →
      LogWindow.submit "My Book" s = .errorKeepOpen "Last page must be a non-negative integer.") :=
  ⟨by decide, by decide,
    c7_last_page_accepted_iff_nonneg 7 ⟨⟨[], none⟩, none, true, "My Book", "7", "book"⟩
      ⟨none, none⟩ "My Book" (by decide) (by decide)⟩

/-- C10: on a page field that is blank after trimming, the editor's
Add/Save treats it as `"0"` and accepts, appending (in new-item mode) an
item with `last_page = 0` and persisting, while the log form's Submit
rejects the same blank input with the validation error and keeps the form
open (src/app.py lines 194-199 versus 352-358). -/
theorem c10_blank_page_disagreement (s t : String) (st : EditorState) (fs : Store)
    (hs : pyStrip s = "") (hpv : st.page_var = s) (hnew : st.new_item_mode = true)
    (ht : pyStrip t ≠ "") :
    save_selected st fs =
      ({ st with
           data := { st.data with
             active := st.data.active ++ [⟨saveTitle st, 0, saveKind st⟩] },
           new_item_mode := false, title_var := "", page_var := "", kind_var := "book",
           selected := some st.data.active.length },
       save_data
         (docToJson { st.data with
           active := st.data.active ++ [⟨saveTitle st, 0, saveKind st⟩] }) fs,
       .saved) ∧
    LogWindow.submit t s = .errorKeepOpen "Last page must be a non-negative integer." := by
  constructor
  · unfold save_selected
    dsimp only
    rw [show savePageStr st = "0" from by unfold savePageStr; rw [hpv, hs, if_pos rfl]]
    rw [show pyInt "0" = some 0 from rfl]
    dsimp only
    rw [if_neg (by decide), hnew]
    rw [if_pos (show (true || st.selected.isNone) = true from Bool.true_or _)]
    rw [show (st.data.active ++ [(⟨saveTitle st, 0, saveKind st⟩ : Item)]).length - 1
        = st.data.active.length from by rw [List.length_append]; rfl]
  · unfold LogWindow.submit
    dsimp only
    rw [if_neg ht, hs]
    rw [show pyInt "" = none from rfl]

theorem c10_witness :
    pyStrip "  " = "" ∧
    ((⟨⟨[], none⟩, none, true, "T", "  ", ""⟩ : EditorState).page_var = "  ") ∧
    ((⟨⟨[], none⟩, none, true, "T", "  ", ""⟩ : EditorState).new_item_mode = true) ∧
    pyStrip "B" ≠ "" ∧
    (save_selected ⟨⟨[], none⟩, none, true, "T", "  ", ""⟩ ⟨none, none⟩ =
      (⟨⟨[⟨"T", 0, "book"⟩], none⟩, some 0, false, "", "", "book"⟩,
       save_data (docToJson ⟨[⟨"T", 0, "book"⟩], none⟩) ⟨none, none⟩, .saved) ∧
     LogWindow.submit "B" "  " = .errorKeepOpen "Last page must be a non-negative integer.") :=
  ⟨by decide, by decide, by decide, by decide,
    c10_blank_page_disagreement "  " "B" ⟨⟨[], none⟩, none, true, "T", "  ", ""⟩ ⟨none, none⟩
      (by decide) (by decide) (by decide) (by decide)⟩

theorem titleMatches_itemToJson (it : Item) (t : String) :
    titleMatches (itemToJson it) t = decide (it.title = t) := rfl

theorem updateFirstByTitle_nomatch (l : List Item) (t : String) (p : Int)
    (h : ∀ x ∈ l, x.title ≠ t) :
    updateFirstByTitle (l.map itemToJson) t p = (l.map itemToJson, false) := by
  induction l with
  | nil => rfl
  | cons it rest ih =>
    rw [List.map_cons]
    unfold updateFirstByTitle
    rw [titleMatches_itemToJson,
      decide_eq_false (h it (List.mem_cons_self it rest))]
    rw [if_neg (by simp)]
    dsimp only
    rw [ih (fun x hx => h x (List.mem_cons_of_mem it hx))]

theorem updateFirstByTitle_match (l1 : List Item) (it : Item) (l2 : List Item)
    (t : String) (p : Int) (h1 : ∀ x ∈ l1, x.title ≠ t) (h2 : it.title = t) :
    updateFirstByTitle ((l1 ++ it :: l2).map itemToJson) t p =
      (l1.map itemToJson ++ itemToJson ⟨it.title, p, it.kind⟩ :: l2.map itemToJson, true) := by
  induction l1 with
  | nil =>
    rw [List.nil_append, List.map_cons]
    unfold updateFirstByTitle
    rw [titleMatches_itemToJson, decide_eq_true h2]
    rw [if_pos rfl]
    rfl
  | cons x rest ih =>
    rw [List.cons_append, List.map_cons]
    unfold updateFirstByTitle
    rw [titleMatches_itemToJson,
      decide_eq_false (h1 x (List.mem_cons_self x rest))]
    rw [if_neg (by simp)]
    dsimp only
    rw [ih (fun y hy => h1 y (List.mem_cons_of_mem x hy))]
    rw [List.map_cons, List.cons_append]

theorem on_submit_update_nomatch (d : Doc) (t : String) (p : Int)
    (h : ∀ x ∈ d.active, x.title ≠ t) :
    on_submit_update (docToJson d) t p =
      docToJson { d with active := d.active ++ [⟨t, p, "book"⟩] } := by
  unfold on_submit_update
  rw [show (docToJson d).getField "active"
      = some (.arr (d.active.map itemToJson)) from rfl]
  dsimp only
  rw [updateFirstByTitle_nomatch d.active t p h]
  dsimp only
  rw [if_neg (by simp)]
  rw [show d.active.map itemToJson ++ [newLogItem t p]
      = (d.active ++ [(⟨t, p, "book"⟩ : Item)]).map itemToJson from by
    rw [List.map_append]; rfl]
  rfl

theorem on_submit_update_match (l1 : List Item) (it : Item) (l2 : List Item)
    (nb : Option String) (t : String) (p : Int)
    (h1 : ∀ x ∈ l1, x.title ≠ t) (h2 : it.title = t) :
    on_submit_update (docToJson ⟨l1 ++ it :: l2, nb⟩) t p =
      docToJson ⟨l1 ++ ⟨it.title, p, it.kind⟩ :: l2, nb⟩ := by
  unfold on_submit_update
  rw [show (docToJson ⟨l1 ++ it :: l2, nb⟩).getField "active"
      = some (.arr ((l1 ++ it :: l2).map itemToJson)) from rfl]
  dsimp only
  rw [updateFirstByTitle_match l1 it l2 t p h1 h2]
  dsimp only
  rw [if_pos rfl]
  rw [show l1.map itemToJson ++ itemToJson ⟨it.title, p, it.kind⟩ :: l2.map itemToJson
      = (l1 ++ (⟨it.title, p, it.kind⟩ : Item) :: l2).map itemToJson from by
    rw [List.map_append, List.map_cons]]
  rfl

/-- C8: on log-form submission with title `t` and page `p`, the caller's
`on_submit` updates the first item of `active` whose title equals `t`
exactly — with duplicate titles only that first occurrence, keeping its
kind and position and touching no other item — or, if no title matches,
appends `\x7btitle: t, last_page: p, kind: "book"\x7d`; and the updated
document is what `save_data` persists in the returned store (src/app.py
lines 556-568). -/
theorem c8_log_submit_updates_first_match (now : EpochSec) (st : AppState) (fs : Store)
    (t : String) (p : Int) :
    ((App.log_submit now st fs t p).2.1 = save_data (on_submit_update st.data t p) fs ∧
     (App.log_submit now st fs t p).1.data = on_submit_update st.data t p) ∧
    (∀ d : Doc, (∀ x ∈ d.active, x.title ≠ t) →
      on_submit_update (docToJson d) t p =
        docToJson { d with active := d.active ++ [⟨t, p, "book"⟩] }) ∧
    (∀ (l1 : List Item) (it : Item) (l2 : List Item) (nb : Option String),
      (∀ x ∈ l1, x.title ≠ t) → it.title = t →
      on_submit_update (docToJson ⟨l1 ++ it :: l2, nb⟩) t p =
        docToJson ⟨l1 ++ ⟨it.title, p, it.kind⟩ :: l2, nb⟩) := by
  refine ⟨⟨?_, ?_⟩, on_submit_update_nomatch (t := t) (p := p),
    fun l1 it l2 nb h1 h2 => on_submit_update_match l1 it l2 nb t p h1 h2⟩
  · unfold App.log_submit
    dsimp only
    rw [snooze_30m_raises]
  · unfold App.log_submit
    dsimp only
    rw [snooze_30m_raises]

theorem c8_witness :
    ((∀ x ∈ ([⟨"A", 1, "book"⟩] : List Item), x.title ≠ "B") ∧
     (⟨"B", 2, "blog"⟩ : Item).title = "B") ∧
    on_submit_update
        (docToJson ⟨[⟨"A", 1, "book"⟩] ++ (⟨"B", 2, "blog"⟩ : Item) :: [⟨"B", 3, "paper"⟩], none⟩)
        "B" 9 =
      docToJson ⟨[⟨"A", 1, "book"⟩] ++ (⟨"B", 9, "blog"⟩ : Item) :: [⟨"B", 3, "paper"⟩], none⟩ :=
  ⟨⟨by decide, by decide⟩, by
    have h := (c8_log_submit_updates_first_match 0 ⟨.null, false, none, [], 0⟩ ⟨none, none⟩
      "B" 9).2.2 [⟨"A", 1, "book"⟩] ⟨"B", 2, "blog"⟩ [⟨"B", 3, "paper"⟩] none
      (by decide) (by decide)
    exact h⟩

/-- C4 (actual code behaviour): the `try` block of `App.__init__` that
should arm the scheduler for the remaining snooze delay never does — after
`parse_utc_iso` succeeds the delay computation evaluates
`datetime.datetime.now(datetime.UTC)` (line 449), the `AttributeError` is
swallowed by the bare `except`, and launch always arms the default
20-minute (1200-second) delay.  The conjuncts: the remaining-delay arm is
dead for every persisted value; the 10-minutes-ahead timestamp of the
spec's scenario is well-formed (so it is not rejected by parsing); every
launch over a program-written document, with or without `--popup-now`, arms
exactly one callback of 1200 seconds. -/
theorem c4_future_snooze_still_default_delay :
    (∀ j, initTryArm j = none) ∧
    parse_utc_iso "2026-01-01T00:10:00Z" = .ok ⟨2026, 1, 1, 0, 10, 0⟩ ∧
    (∀ (argv : List String) (d : Doc) (fs : Store),
      App.init argv (save_data (docToJson d) fs) =
        .ok (⟨docToJson d, false, some 0, [(0, DELAY_AFTER_LOGIN_MIN * 60)], 1⟩,
          ensure_storage (save_data (docToJson d) fs))) ∧
    App.init [] (save_data (docToJson ⟨[], some "2026-01-01T00:10:00Z"⟩) ⟨none, none⟩) =
      .ok (⟨docToJson ⟨[], some "2026-01-01T00:10:00Z"⟩, false, some 0, [(0, 1200)], 1⟩,
        ensure_storage (save_data (docToJson ⟨[], some "2026-01-01T00:10:00Z"⟩) ⟨none, none⟩)) := by
  have harm : ∀ (argv : List String) (d : Doc) (fs : Store),
      App.init argv (save_data (docToJson d) fs) =
        .ok (⟨docToJson d, false, some 0, [(0, DELAY_AFTER_LOGIN_MIN * 60)], 1⟩,
          ensure_storage (save_data (docToJson d) fs)) := by
    intro argv d fs
    unfold App.init
    rw [show load_data (save_data (docToJson d) fs)
        = .ok (docToJson d, ensure_storage (save_data (docToJson d) fs)) from
      load_after_save (docToJson d) fs]
    rw [ebind_ok]
    dsimp only
    split
    · rw [initTryArm_none]
      rfl
    · rfl
  exact ⟨initTryArm_none, rfl, harm, harm [] ⟨[], some "2026-01-01T00:10:00Z"⟩ ⟨none, none⟩⟩

/-- C5 (actual code behaviour): arming is single-slot — when every pending
callback carries the remembered `after` id, re-arming cancels it and leaves
exactly the one new callback.  But the fire-time re-check is dead: with a
set timestamp the comparison evaluates `datetime.datetime` (line 472), the
`AttributeError` is swallowed, and `fireSnoozeCheck` never asks to re-arm,
so a fire with `now` before `next_popup_not_before` shows the popup instead
of re-arming (final conjunct, on a future timestamp).  The
popup-already-open discard does hold (third conjunct). -/
theorem c5_single_slot_but_dead_recheck (st : AppState) (fs : Store) (secs : Nat) :
    ((∀ e ∈ st.pending, some e.1 = st.scheduled_popup_id) →
      (schedule_popup_in_seconds st secs).pending = [(st.next_id, secs)]) ∧
    (∀ j, fireSnoozeCheck j = none) ∧
    (st.popup_handle = true → show_popup st fs = .ok (st, fs)) ∧
    show_popup ⟨docToJson ⟨[], some "2026-01-01T00:10:00Z"⟩, false, some 0, [(0, 1200)], 1⟩
        (save_data (docToJson ⟨[], some "2026-01-01T00:10:00Z"⟩) ⟨none, none⟩) =
      .ok (⟨docToJson ⟨[], some "2026-01-01T00:10:00Z"⟩, true, some 0, [(0, 1200)], 1⟩,
        ensure_storage (save_data (docToJson ⟨[], some "2026-01-01T00:10:00Z"⟩) ⟨none, none⟩)) := by
  refine ⟨?_, fireSnoozeCheck_none, ?_, ?_⟩
  · intro h
    unfold schedule_popup_in_seconds
    cases hid : st.scheduled_popup_id with
    | none =>
      have : st.pending = [] := by
        cases hp : st.pending with
        | nil => rfl
        | cons e rest =>
          have := h e (hp ▸ List.mem_cons_self e rest)
          rw [hid] at this
          exact absurd this (by simp)
      rw [this]
      rfl
    | some i =>
      dsimp only
      have hfil : st.pending.filter (fun e => e.1 ≠ i) = [] := by
        rw [List.filter_eq_nil]
        intro e he
        have h2 := h e he
        rw [hid] at h2
        have h3 : e.1 = i := Option.some.inj h2
        simp [h3]
      rw [hfil]
      rfl
  · intro h
    unfold show_popup
    rw [fireSnoozeCheck_none]
    dsimp only
    rw [h]
    rfl
  · unfold show_popup
    rw [fireSnoozeCheck_none]
    dsimp only
    rw [show load_data (save_data (docToJson ⟨[], some "2026-01-01T00:10:00Z"⟩) ⟨none, none⟩)
        = .ok (docToJson ⟨[], some "2026-01-01T00:10:00Z"⟩,
            ensure_storage (save_data (docToJson ⟨[], some "2026-01-01T00:10:00Z"⟩) ⟨none, none⟩))
      from load_after_save _ _]
    rfl

theorem c5_witness :
    (∀ e ∈ ([(4, 600)] : List (Nat × Nat)), some e.1 = some 4) ∧
    ((true : Bool) = true) ∧
    (schedule_popup_in_seconds ⟨.null, false, some 4, [(4, 600)], 5⟩ 30).pending = [(5, 30)] ∧
    show_popup ⟨.null, true, none, [], 0⟩ ⟨none, none⟩ = .ok (⟨.null, true, none, [], 0⟩, ⟨none, none⟩) := by
  have h := c5_single_slot_but_dead_recheck ⟨.null, false, some 4, [(4, 600)], 5⟩ ⟨none, none⟩ 30
  have h2 := c5_single_slot_but_dead_recheck ⟨.null, true, none, [], 0⟩ ⟨none, none⟩ 30
  exact ⟨by decide, rfl, h.1 (by decide), h2.2.2.1 rfl⟩
